import Mathlib

/-! netpoll: `pollDesc` (net_polldesc.go)

A shallow embedding of `net_polldesc.go` and a verification development about
it.  Two views of the same code are given:

* a *call-level* view, in which `onwrite`, `onhup`, `detach` and `WaitWrite` run
  from entry to exit without another goroutine touching the descriptor;
* a *step-level* view, in which every invocation is a thread with a program
  counter and the threads are interleaved statement by statement.

The results returned by `operator.Control`, the case taken by a `select` with
several ready cases and the moment a context is cancelled are not decided by
this file of the repository; they are inputs of the embedding.
-/

namespace Netpoll

/-! ## Values -/

/-- The poll events this file passes to `operator.Control`. -/
inductive PollEvent
  | PollWritable
  | PollDetach
deriving DecidableEq, Repr

/-- The error kinds this file passes to `Exception`. -/
inductive ErrKind
  | ErrConnClosed
deriving DecidableEq, Repr

/-- A non-nil Go error value: one built by `Exception(kind, suffix)`, or any
other one (from the poller, from the context package, ...), told apart by a
number. -/
inductive ErrVal
  | Exception (kind : ErrKind) (suffix : String)
  | other (code : Nat)
deriving DecidableEq, Repr

/-- A Go `error`: `none` is `nil`. -/
abbrev Error := Option ErrVal

/-- The value of `Exception(ErrConnClosed, "by peer")`. -/
def peerClosed : Error := some (ErrVal.Exception ErrKind.ErrConnClosed "by peer")

/-- A run-time panic of the Go program. -/
inductive Panic
  | closeOfClosedChannel
deriving DecidableEq, Repr

/-- A `chan struct{}` on which nothing is ever sent: all that can be observed
of it is whether it has been closed. -/
structure Chan where
  isClosed : Bool
deriving DecidableEq, Repr

/-- The Go expression `make(chan struct{})`. -/
def Chan.make : Chan := ⟨false⟩

/-- Whether a receive `<-c` can proceed: on a channel without senders, exactly
when it is closed. -/
def Chan.recvReady (c : Chan) : Bool := c.isClosed

/-- The Go statement `close(c)`: closing a closed channel panics. -/
def Chan.close (c : Chan) : Except Panic Chan :=
  if c.isClosed then Except.error Panic.closeOfClosedChannel else Except.ok ⟨true⟩

/-- A `context.Context` as `WaitWrite` sees it: `Err` is what `ctx.Err()`
returns, and `ctx.Done()` is closed exactly when that is not nil. -/
structure Context where
  Err : Error
deriving DecidableEq, Repr

/-- Whether a receive on `ctx.Done()` can proceed. -/
def Context.doneReady (ctx : Context) : Bool := ctx.Err.isSome

/-! ## The operator -/

/-- A call made on the operator: `Control(event)` with the error it returned,
or `Free()`. -/
inductive OpCall
  | Control (event : PollEvent) (result : Error)
  | Free
deriving DecidableEq, Repr

/-- Modelled from the spec: `FDOperator` is declared outside net_polldesc.go.
Of the registration handle the spec says that it exposes `Control(intent)`
returning error-or-success, `Release()` (here `Free`), and `isUnused()`, which
tells "whether arming has not yet occurred"; `unused` is that flag, `FD` the
file descriptor set by `newPollDesc`, and `calls` records, in order, every
call made on the operator. -/
structure FDOperator where
  FD : Int
  unused : Bool
  calls : List OpCall
deriving DecidableEq, Repr

/-- Modelled from the spec: `isUnused()` tells whether arming has not yet
occurred. -/
def FDOperator.isUnused (op : FDOperator) : Bool := op.unused

/-- Modelled from the spec: `Control(event)` returns the poller's answer
`result`, which this file does not decide; arming (`PollWritable`) marks the
operator as in use, and no other call marks it unused again. -/
def FDOperator.Control (op : FDOperator) (event : PollEvent) (result : Error) :
    FDOperator × Error :=
  ({ op with
      unused := (match event with
        | PollEvent.PollWritable => false
        | PollEvent.PollDetach => op.unused),
      calls := op.calls ++ [OpCall.Control event result] }, result)

/-- Modelled from the spec: `Free()` hands the operator back to its pool; here
the call is recorded. -/
def FDOperator.Free (op : FDOperator) : FDOperator :=
  { op with calls := op.calls ++ [OpCall.Free] }

/-! ## The descriptor -/

/-- The Go struct `pollDesc`. -/
structure pollDesc where
  operator : FDOperator
  closed : Int
  writeTrigger : Chan
  closeTrigger : Chan
deriving DecidableEq, Repr

/-- The Go function `newPollDesc(fd)`; `op` is the operator that
`pollmanager.Pick().Alloc()` returned.  The hooks `op.OnWrite` and `op.OnHup`
are bound to `onwrite` and `onhup` of the new descriptor: the poller calling a
hook is a call of that method. -/
def newPollDesc (op : FDOperator) (fd : Int) : pollDesc :=
  { operator := { op with FD := fd },
    closed := 0,
    writeTrigger := Chan.make,
    closeTrigger := Chan.make }

/-- The Go function `atomic.CompareAndSwapInt32(&addr, old, new)`: the new
content of `addr` and whether the swap happened. -/
def CompareAndSwapInt32 (addr old new : Int) : Int × Bool :=
  if addr = old then (new, true) else (addr, false)

/-- The statement `select { case <-c: default: close(c) }`. -/
def closeOnce (c : Chan) : Except Panic Chan :=
  if c.recvReady then Except.ok c else c.close

/-- The method `pollDesc.onwrite`, run without interference: the descriptor it
leaves and the error it returns. -/
def pollDesc.onwrite (pd : pollDesc) : Except Panic (pollDesc × Error) := do
  let c ← closeOnce pd.writeTrigger
  let pd := { pd with writeTrigger := c }
  return (pd, none)

/-- The method `pollDesc.onhup`, run without interference. -/
def pollDesc.onhup (pd : pollDesc) : Except Panic (pollDesc × Error) := do
  let c ← closeOnce pd.closeTrigger
  let pd := { pd with closeTrigger := c }
  let (v, swapped) := CompareAndSwapInt32 pd.closed 0 1
  let pd := { pd with closed := v }
  let pd := if swapped then { pd with operator := pd.operator.Free } else pd
  return (pd, none)

/-- The method `pollDesc.detach`, run without interference; `ctl` is what
`operator.Control(PollDetach)` returns if it is called.  The method returns
nothing. -/
def pollDesc.detach (pd : pollDesc) (ctl : Error) : pollDesc :=
  let (v, swapped) := CompareAndSwapInt32 pd.closed 0 1
  let pd := { pd with closed := v }
  if !swapped then
    pd
  else
    let (op, err) := pd.operator.Control PollEvent.PollDetach ctl
    let pd := { pd with operator := op }
    if err.isSome then
      pd
    else
      { pd with operator := pd.operator.Free }

/-- The cases of the three-way `select` of `WaitWrite`, in source order. -/
inductive Branch
  | closeTrigger
  | writeTrigger
  | ctxDone
deriving DecidableEq, Repr

/-- A blocking `select` over the three cases: `none` when no case can proceed
(the goroutine stays suspended); otherwise one of the cases that can proceed.
Go picks among the ready cases at random: `pick` is that choice, and it is
honoured whenever the picked case is ready. -/
def select3 (closeReady writeReady ctxReady : Bool) (pick : Branch) : Option Branch :=
  match pick with
  | Branch.closeTrigger =>
    if closeReady then some Branch.closeTrigger
    else if writeReady then some Branch.writeTrigger
    else if ctxReady then some Branch.ctxDone
    else none
  | Branch.writeTrigger =>
    if writeReady then some Branch.writeTrigger
    else if closeReady then some Branch.closeTrigger
    else if ctxReady then some Branch.ctxDone
    else none
  | Branch.ctxDone =>
    if ctxReady then some Branch.ctxDone
    else if closeReady then some Branch.closeTrigger
    else if writeReady then some Branch.writeTrigger
    else none

/-- What the environment decides during one call: the results of the two
`operator.Control` calls and the case a `select` takes when several are
ready. -/
structure Oracle where
  arm : Error
  branch : Branch
  detach : Error
deriving DecidableEq, Repr

/-- How a call of `WaitWrite` ends: it returns an error (possibly nil), or it
stays suspended in the `select`. -/
inductive WaitResult
  | returned (err : Error)
  | blocked
deriving DecidableEq, Repr

/-- The final `select { case <-pd.closeTrigger: ... default: return err }`. -/
def pollDesc.recheck (pd : pollDesc) (err : Error) : Error :=
  if pd.closeTrigger.recvReady then peerClosed else err

/-- The method `pollDesc.WaitWrite`, run without interference (the signals and
the context are as they were on entry); `mapErr` is the repository's function
of that name, defined outside net_polldesc.go. -/
def pollDesc.WaitWrite (mapErr : Error → Error) (pd : pollDesc) (ctx : Context)
    (o : Oracle) : pollDesc × WaitResult :=
  let (pd, err) :=
    if pd.operator.isUnused then
      let (op, err) := pd.operator.Control PollEvent.PollWritable o.arm
      ({ pd with operator := op }, err)
    else
      (pd, none)
  if err.isSome then
    (pd, WaitResult.returned err)
  else
    match select3 pd.closeTrigger.recvReady pd.writeTrigger.recvReady ctx.doneReady
        o.branch with
    | none => (pd, WaitResult.blocked)
    | some Branch.closeTrigger => (pd, WaitResult.returned peerClosed)
    | some Branch.writeTrigger => (pd, WaitResult.returned (pd.recheck none))
    | some Branch.ctxDone =>
      let pd := pd.detach o.detach
      (pd, WaitResult.returned (pd.recheck (mapErr ctx.Err)))

/-! ## Step-level view: threads and interleavings -/

/-- Program points of `onwrite` (lines 79-84). -/
inductive OnwritePc
  | select
  | close
  | ret (err : Error)
deriving DecidableEq, Repr

/-- Program points of `onhup` (lines 89-97). -/
inductive OnhupPc
  | select
  | close
  | cas
  | free
  | ret (err : Error)
deriving DecidableEq, Repr

/-- Program points of `detach` (lines 101-111). -/
inductive DetachPc
  | cas
  | control
  | free
  | ret
deriving DecidableEq, Repr

/-- Program points of `WaitWrite` (lines 50-75); `detach pc` is the call of
`pd.detach()` on line 66, at point `pc` of `detach`; `recheck err` is the
second `select`, with the value held by `err`. -/
inductive WaitPc
  | entry
  | arm
  | select
  | detach (pc : DetachPc)
  | recheck (err : Error)
  | ret (err : Error)
deriving DecidableEq, Repr

/-- One invocation of a method of the descriptor, with the point it has
reached; a `WaitWrite` invocation carries the context it was called with. -/
inductive Thread
  | onwrite (pc : OnwritePc)
  | onhup (pc : OnhupPc)
  | detach (pc : DetachPc)
  | WaitWrite (ctx : Context) (pc : WaitPc)
deriving DecidableEq, Repr

/-- One statement of `detach`; `none` once it has returned. -/
def DetachPc.step (pd : pollDesc) (ctl : Error) : DetachPc → Option (pollDesc × DetachPc)
  | DetachPc.cas =>
    let (v, swapped) := CompareAndSwapInt32 pd.closed 0 1
    let pd := { pd with closed := v }
    if !swapped then some (pd, DetachPc.ret) else some (pd, DetachPc.control)
  | DetachPc.control =>
    let (op, err) := pd.operator.Control PollEvent.PollDetach ctl
    let pd := { pd with operator := op }
    if err.isSome then some (pd, DetachPc.ret) else some (pd, DetachPc.free)
  | DetachPc.free => some ({ pd with operator := pd.operator.Free }, DetachPc.ret)
  | DetachPc.ret => none

/-- One statement of a thread: `none` when the thread cannot move (it has
returned, or it is suspended in a `select` with no ready case), a panic when
the statement panics, otherwise the descriptor and the thread after it. -/
def Thread.step (mapErr : Error → Error) (pd : pollDesc) (o : Oracle) :
    Thread → Option (Except Panic (pollDesc × Thread))
  | Thread.onwrite OnwritePc.select =>
    if pd.writeTrigger.recvReady then some (Except.ok (pd, Thread.onwrite (OnwritePc.ret none)))
    else some (Except.ok (pd, Thread.onwrite OnwritePc.close))
  | Thread.onwrite OnwritePc.close =>
    match pd.writeTrigger.close with
    | Except.error p => some (Except.error p)
    | Except.ok c =>
      some (Except.ok ({ pd with writeTrigger := c }, Thread.onwrite (OnwritePc.ret none)))
  | Thread.onwrite (OnwritePc.ret _) => none
  | Thread.onhup OnhupPc.select =>
    if pd.closeTrigger.recvReady then some (Except.ok (pd, Thread.onhup OnhupPc.cas))
    else some (Except.ok (pd, Thread.onhup OnhupPc.close))
  | Thread.onhup OnhupPc.close =>
    match pd.closeTrigger.close with
    | Except.error p => some (Except.error p)
    | Except.ok c => some (Except.ok ({ pd with closeTrigger := c }, Thread.onhup OnhupPc.cas))
  | Thread.onhup OnhupPc.cas =>
    let (v, swapped) := CompareAndSwapInt32 pd.closed 0 1
    let pd := { pd with closed := v }
    if swapped then some (Except.ok (pd, Thread.onhup OnhupPc.free))
    else some (Except.ok (pd, Thread.onhup (OnhupPc.ret none)))
  | Thread.onhup OnhupPc.free =>
    some (Except.ok ({ pd with operator := pd.operator.Free }, Thread.onhup (OnhupPc.ret none)))
  | Thread.onhup (OnhupPc.ret _) => none
  | Thread.detach pc =>
    match pc.step pd o.detach with
    | none => none
    | some (pd, pc) => some (Except.ok (pd, Thread.detach pc))
  | Thread.WaitWrite ctx WaitPc.entry =>
    if pd.operator.isUnused then some (Except.ok (pd, Thread.WaitWrite ctx WaitPc.arm))
    else some (Except.ok (pd, Thread.WaitWrite ctx WaitPc.select))
  | Thread.WaitWrite ctx WaitPc.arm =>
    let (op, err) := pd.operator.Control PollEvent.PollWritable o.arm
    let pd := { pd with operator := op }
    if err.isSome then some (Except.ok (pd, Thread.WaitWrite ctx (WaitPc.ret err)))
    else some (Except.ok (pd, Thread.WaitWrite ctx WaitPc.select))
  | Thread.WaitWrite ctx WaitPc.select =>
    match select3 pd.closeTrigger.recvReady pd.writeTrigger.recvReady ctx.doneReady
        o.branch with
    | none => none
    | some Branch.closeTrigger => some (Except.ok (pd, Thread.WaitWrite ctx (WaitPc.ret peerClosed)))
    | some Branch.writeTrigger => some (Except.ok (pd, Thread.WaitWrite ctx (WaitPc.recheck none)))
    | some Branch.ctxDone => some (Except.ok (pd, Thread.WaitWrite ctx (WaitPc.detach DetachPc.cas)))
  | Thread.WaitWrite ctx (WaitPc.detach pc) =>
    match pc.step pd o.detach with
    | none => some (Except.ok (pd, Thread.WaitWrite ctx (WaitPc.recheck (mapErr ctx.Err))))
    | some (pd, pc) => some (Except.ok (pd, Thread.WaitWrite ctx (WaitPc.detach pc)))
  | Thread.WaitWrite ctx (WaitPc.recheck err) =>
    some (Except.ok (pd, Thread.WaitWrite ctx (WaitPc.ret (pd.recheck err))))
  | Thread.WaitWrite _ (WaitPc.ret _) => none

/-- The descriptor together with the invocations in progress on it; `crashed`
is set once a statement has panicked (a panic ends the Go program). -/
structure Sys where
  pd : pollDesc
  threads : List Thread
  crashed : Bool
deriving DecidableEq, Repr

/-- What happens next: thread `tid` executes its next statement, with `o`
deciding what this file leaves open; or the context of the `WaitWrite`
invocation `tid`, not done so far, becomes done with `ctx.Err() = some err`. -/
inductive Action
  | step (tid : Nat) (o : Oracle)
  | cancel (tid : Nat) (err : ErrVal)
deriving DecidableEq, Repr

/-- One transition of the system; `none` when the action cannot happen. -/
def Sys.step (mapErr : Error → Error) (s : Sys) : Action → Option Sys
  | Action.step tid o =>
    if s.crashed then none
    else
      match s.threads[tid]? with
      | none => none
      | some t =>
        match t.step mapErr s.pd o with
        | none => none
        | some (Except.error _) => some { s with crashed := true }
        | some (Except.ok (pd, t)) =>
          some { s with pd := pd, threads := s.threads.set tid t }
  | Action.cancel tid err =>
    if s.crashed then none
    else
      match s.threads[tid]? with
      | some (Thread.WaitWrite ctx pc) =>
        if ctx.doneReady then none
        else some { s with threads := s.threads.set tid (Thread.WaitWrite ⟨some err⟩ pc) }
      | _ => none

/-- A finite execution: the actions of a schedule, one after the other. -/
def Sys.run (mapErr : Error → Error) : Sys → List Action → Option Sys
  | s, [] => some s
  | s, a :: as =>
    match s.step mapErr a with
    | none => none
    | some s => Sys.run mapErr s as

/-- A method invocation about to start. -/
inductive Call
  | onwrite
  | onhup
  | detach
  | WaitWrite (ctx : Context)
deriving DecidableEq, Repr

/-- The thread of an invocation that has not executed anything yet. -/
def Call.start : Call → Thread
  | Call.onwrite => Thread.onwrite OnwritePc.select
  | Call.onhup => Thread.onhup OnhupPc.select
  | Call.detach => Thread.detach DetachPc.cas
  | Call.WaitWrite ctx => Thread.WaitWrite ctx WaitPc.entry

/-- The system in which the invocations `calls` are about to start on `pd`. -/
def Sys.init (pd : pollDesc) (calls : List Call) : Sys :=
  { pd := pd, threads := calls.map Call.start, crashed := false }

/-! ## Observations -/

/-- The number of `operator.Free()` calls made so far. -/
def pollDesc.frees (pd : pollDesc) : Nat := pd.operator.calls.count OpCall.Free

/-- Whether a call is `Control(event)`. -/
def OpCall.isControl (event : PollEvent) : OpCall → Bool
  | OpCall.Control e _ => e == event
  | OpCall.Free => false

/-- Whether a call is a `Control(PollDetach)` that returned an error. -/
def OpCall.isFailedDetach : OpCall → Bool
  | OpCall.Control PollEvent.PollDetach (some _) => true
  | _ => false

/-- The number of `operator.Control(event)` calls made so far. -/
def pollDesc.controls (pd : pollDesc) (event : PollEvent) : Nat :=
  pd.operator.calls.countP (OpCall.isControl event)

/-- The number of `operator.Control(PollDetach)` calls that returned an error. -/
def pollDesc.failedDetaches (pd : pollDesc) : Nat :=
  pd.operator.calls.countP OpCall.isFailedDetach

/-- Whether a thread has returned. -/
def Thread.returned : Thread → Bool
  | Thread.onwrite (OnwritePc.ret _) => true
  | Thread.onhup (OnhupPc.ret _) => true
  | Thread.detach DetachPc.ret => true
  | Thread.WaitWrite _ (WaitPc.ret _) => true
  | _ => false

/-- Whether a thread has won the compare-and-swap on `closed` and has not yet
made, or given up, the `Free()` call that goes with it. -/
def Thread.holds : Thread → Bool
  | Thread.onhup OnhupPc.free => true
  | Thread.detach DetachPc.control => true
  | Thread.detach DetachPc.free => true
  | Thread.WaitWrite _ (WaitPc.detach DetachPc.control) => true
  | Thread.WaitWrite _ (WaitPc.detach DetachPc.free) => true
  | _ => false

/-- Whether a thread is a `WaitWrite` invocation that has started and has not
returned. -/
def Thread.inWait : Thread → Bool
  | Thread.WaitWrite _ WaitPc.entry => false
  | Thread.WaitWrite _ (WaitPc.ret _) => false
  | Thread.WaitWrite _ _ => true
  | _ => false

/-- Whether a thread is an `onhup` or `detach` invocation that is past its
compare-and-swap on `closed`. -/
def Thread.claimed : Thread → Bool
  | Thread.onhup OnhupPc.free => true
  | Thread.onhup (OnhupPc.ret _) => true
  | Thread.detach DetachPc.control => true
  | Thread.detach DetachPc.free => true
  | Thread.detach DetachPc.ret => true
  | _ => false

/-- The number of threads that hold the right to release the operator. -/
def Sys.holders (s : Sys) : Nat := s.threads.countP Thread.holds

/-- The release invariant, relative to the number `f0` of failed detaches
recorded before the execution started: while `closed` is 0 nothing has been
released, no thread holds the right to release and no `onhup` or `detach` is
past its compare-and-swap; once `closed` is not 0 the right to release exists
exactly once: as a `Free()` call made, as a failed `Control(PollDetach)`, or in
the hands of one thread. -/
def Sys.releaseInv (f0 : Nat) (s : Sys) : Prop :=
  f0 ≤ s.pd.failedDetaches ∧
  (s.pd.closed = 0 →
    s.pd.frees = 0 ∧ s.pd.failedDetaches = f0 ∧ s.holders = 0 ∧
      ∀ t ∈ s.threads, t.claimed = false) ∧
  (s.pd.closed ≠ 0 → s.pd.frees + s.pd.failedDetaches + s.holders = f0 + 1)

/-- Whether a thread is an `onhup` or a `detach` invocation. -/
def Thread.isRelease : Thread → Bool
  | Thread.onhup _ => true
  | Thread.detach _ => true
  | _ => false

/-- An operator as the pool hands it out: not armed, nothing called on it. -/
def FDOperator.fresh : FDOperator := { FD := 0, unused := true, calls := [] }

/-- An oracle under which both `Control` calls succeed. -/
def Oracle.ok (b : Branch) : Oracle := { arm := none, branch := b, detach := none }

/-- An oracle under which `Control(PollDetach)` fails with `e`. -/
def Oracle.detachFails (e : ErrVal) : Oracle :=
  { arm := none, branch := Branch.ctxDone, detach := some e }

/-- An oracle under which `Control(PollWritable)` fails with `e`. -/
def Oracle.armFails (e : ErrVal) : Oracle :=
  { arm := some e, branch := Branch.closeTrigger, detach := none }

/-- The method `f` (`onwrite` or `onhup`) called `n` times in a row: the
descriptor left by the last call and the errors returned, in order; a panic in
any of the calls is a panic of the whole. -/
def callTimes (f : pollDesc → Except Panic (pollDesc × Error)) :
    Nat → pollDesc → Except Panic (pollDesc × List Error)
  | 0, pd => Except.ok (pd, [])
  | n + 1, pd =>
    match f pd with
    | Except.error p => Except.error p
    | Except.ok (pd, err) =>
      match callTimes f n pd with
      | Except.error p => Except.error p
      | Except.ok (pd, errs) => Except.ok (pd, err :: errs)

/-- The descriptor after a `Control(event)` call that returned `result`. -/
def pollDesc.afterControl (pd : pollDesc) (event : PollEvent) (result : Error) : pollDesc :=
  { pd with operator := (pd.operator.Control event result).1 }

/-- What can be said of a `WaitWrite` invocation at point `pc` once
`closeTrigger` is closed; `early` tells whether the trigger was closed before
the invocation was past its arming, and `calls` are the calls recorded on the
operator. Before the arming is over only `early` invocations are considered; a
returned invocation has returned the peer-closed error or, if it was `early`, an
error that a `Control(PollWritable)` call returned. -/
def WaitPc.afterHup (early : Prop) (calls : List OpCall) : WaitPc → Prop
  | WaitPc.entry => early
  | WaitPc.arm => early
  | WaitPc.ret r =>
    r = peerClosed ∨
      (early ∧ ∃ e, r = some e ∧ OpCall.Control PollEvent.PollWritable (some e) ∈ calls)
  | _ => True

/-- Whether a thread is a `WaitWrite` invocation about to make its arming
call. -/
def Thread.atArm : Thread → Bool
  | Thread.WaitWrite _ WaitPc.arm => true
  | _ => false

/-- The number of `WaitWrite` invocations that have started and not returned. -/
def Sys.waiters (s : Sys) : Nat := s.threads.countP Thread.inWait

/-- Whether, along the execution of a schedule, the `WaitWrite` invocations
take place one after the other: in no state on the way is more than one of
them started and not returned. -/
def Sys.waitsInTurn (mapErr : Error → Error) : Sys → List Action → Bool
  | s, [] => decide (s.waiters ≤ 1)
  | s, a :: as =>
    decide (s.waiters ≤ 1) &&
      (match s.step mapErr a with
        | none => true
        | some s' => Sys.waitsInTurn mapErr s' as)

/-- The arming invariant, relative to the number `a0` of `Control(PollWritable)`
calls recorded before the execution started: while the operator is unused no
further such call has been made; once it is in use at most one has been made
and no `WaitWrite` invocation is about to make another. -/
def Sys.armInv (a0 : Nat) (s : Sys) : Prop :=
  (s.pd.operator.unused = true → s.pd.controls PollEvent.PollWritable = a0) ∧
  (s.pd.operator.unused = false →
    s.pd.controls PollEvent.PollWritable ≤ a0 + 1 ∧ s.threads.countP Thread.atArm = 0)

/-- What can be said of a `WaitWrite` invocation at point `pc` after its wait
has resolved through case `b`, on the descriptor `pd`; `ctx` is the context as
it was when the wait resolved. Through `closeTrigger`: it has returned the
peer-closed error. Through `writeTrigger`: it holds or has returned nil, unless
`closeTrigger` was closed by the re-check. Through `ctx.Done()`: it is in
`detach`, past whose compare-and-swap `closed` is not 0, and then holds or has
returned the mapped context error, unless `closeTrigger` was closed by the
re-check. -/
def WaitPc.afterSelect (mapErr : Error → Error) (ctx : Context) (pd : pollDesc) :
    Branch → WaitPc → Prop
  | Branch.closeTrigger, WaitPc.ret r => r = peerClosed ∧ pd.closeTrigger.isClosed = true
  | Branch.writeTrigger, WaitPc.recheck e => e = none
  | Branch.writeTrigger, WaitPc.ret r =>
    r = none ∨ (r = peerClosed ∧ pd.closeTrigger.isClosed = true)
  | Branch.ctxDone, WaitPc.detach d => d = DetachPc.cas ∨ pd.closed ≠ 0
  | Branch.ctxDone, WaitPc.recheck e => e = mapErr ctx.Err ∧ pd.closed ≠ 0
  | Branch.ctxDone, WaitPc.ret r =>
    pd.closed ≠ 0 ∧ (r = mapErr ctx.Err ∨ (r = peerClosed ∧ pd.closeTrigger.isClosed = true))
  | _, _ => False

/-- The error `WaitWrite` returns after its wait has resolved through case `b`
when `closeTrigger` is not closed at the re-check. -/
def Branch.result (mapErr : Error → Error) (ctx : Context) : Branch → Error
  | Branch.closeTrigger => peerClosed
  | Branch.writeTrigger => none
  | Branch.ctxDone => mapErr ctx.Err

/-- The descriptor once `WaitWrite` is past its arming, when the arming call,
if any, succeeds. -/
def pollDesc.armed (pd : pollDesc) : pollDesc :=
  if pd.operator.isUnused then pd.afterControl PollEvent.PollWritable none else pd

/-- A thread run on its own for at most `fuel` statements, the oracle `o`
deciding what is left open at each of them: the descriptor and the thread when
it cannot move any more (or the fuel is spent), or the panic. -/
def Thread.solo (mapErr : Error → Error) (o : Oracle) :
    Nat → pollDesc → Thread → Except Panic (pollDesc × Thread)
  | 0, pd, t => Except.ok (pd, t)
  | fuel + 1, pd, t =>
    match t.step mapErr pd o with
    | none => Except.ok (pd, t)
    | some (Except.error p) => Except.error p
    | some (Except.ok (pd, t)) => Thread.solo mapErr o fuel pd t

/-- The thread a call of `WaitWrite` with context `ctx` ends as: returned, or
suspended in its `select`. -/
def WaitResult.thread (ctx : Context) : WaitResult → Thread
  | WaitResult.returned err => Thread.WaitWrite ctx (WaitPc.ret err)
  | WaitResult.blocked => Thread.WaitWrite ctx WaitPc.select

/-! ## Example executions -/

/-- A schedule for `[onhup, detach]`: `onhup` finds `closeTrigger` open, `detach`
wins the compare-and-swap, `onhup` closes `closeTrigger` and loses the
compare-and-swap, `detach` detaches and frees. -/
def raceSchedule : List Action :=
  [Action.step 0 (Oracle.ok Branch.ctxDone), Action.step 1 (Oracle.ok Branch.ctxDone),
   Action.step 0 (Oracle.ok Branch.ctxDone), Action.step 0 (Oracle.ok Branch.ctxDone),
   Action.step 1 (Oracle.ok Branch.ctxDone), Action.step 1 (Oracle.ok Branch.ctxDone)]

/-- The state `raceSchedule` ends in. -/
def raceFinal : Sys :=
  ⟨⟨⟨3, true, [OpCall.Control PollEvent.PollDetach none, OpCall.Free]⟩, 1, ⟨false⟩, ⟨true⟩⟩,
    [Thread.onhup (OnhupPc.ret none), Thread.detach DetachPc.ret], false⟩

/-- A schedule for `[detach, onhup]`: `detach` wins the compare-and-swap and
its `Control(PollDetach)` fails, then `onhup` runs to its end. -/
def failedDetachSchedule : List Action :=
  [Action.step 0 (Oracle.detachFails (ErrVal.other 1)),
   Action.step 0 (Oracle.detachFails (ErrVal.other 1)),
   Action.step 1 (Oracle.ok Branch.ctxDone), Action.step 1 (Oracle.ok Branch.ctxDone),
   Action.step 1 (Oracle.ok Branch.ctxDone)]

/-- The state `failedDetachSchedule` ends in. -/
def failedDetachFinal : Sys :=
  ⟨⟨⟨3, true, [OpCall.Control PollEvent.PollDetach (some (ErrVal.other 1))]⟩, 1, ⟨false⟩,
      ⟨true⟩⟩,
    [Thread.detach DetachPc.ret, Thread.onhup (OnhupPc.ret none)], false⟩

/-- A schedule for `[WaitWrite, onhup]` on a new descriptor: `WaitWrite` is
called and finds the operator unused; `onhup`, invoked meanwhile, finds
`closeTrigger` open and closes it; then the arming call of `WaitWrite` fails
with error 7. The compare-and-swap of `onhup` has not taken place yet. -/
def armFailsRaceSchedule : List Action :=
  [Action.step 0 (Oracle.armFails (ErrVal.other 7)),
   Action.step 1 (Oracle.ok Branch.closeTrigger), Action.step 1 (Oracle.ok Branch.closeTrigger),
   Action.step 0 (Oracle.armFails (ErrVal.other 7))]

/-- The state after the first three actions of `armFailsRaceSchedule`:
`closeTrigger` is closed, `closed` is 0, nothing has been called on the
operator, and `WaitWrite` is about to make its arming call. -/
def armFailsRaceClosed : Sys :=
  ⟨⟨⟨3, true, []⟩, 0, ⟨false⟩, ⟨true⟩⟩,
    [Thread.WaitWrite ⟨none⟩ WaitPc.arm, Thread.onhup OnhupPc.cas], false⟩

/-- The state `armFailsRaceSchedule` ends in: `WaitWrite` has returned error 7,
`closed` is still 0 and `Free()` has not been called. -/
def armFailsRaceFinal : Sys :=
  ⟨⟨⟨3, false, [OpCall.Control PollEvent.PollWritable (some (ErrVal.other 7))]⟩, 0, ⟨false⟩,
      ⟨true⟩⟩,
    [Thread.WaitWrite ⟨none⟩ (WaitPc.ret (some (ErrVal.other 7))), Thread.onhup OnhupPc.cas],
    false⟩

/-- A state in which a `WaitWrite` invocation is suspended in its `select` on an
armed descriptor while an `onhup` invocation has just closed `closeTrigger`. -/
def waitingHupClosed : Sys :=
  ⟨⟨⟨3, false, [OpCall.Control PollEvent.PollWritable none]⟩, 0, ⟨false⟩, ⟨true⟩⟩,
    [Thread.WaitWrite ⟨none⟩ WaitPc.select, Thread.onhup OnhupPc.cas], false⟩

/-- The state after `WaitWrite` has then been cancelled, has taken the
`ctx.Done()` case, lost the compare-and-swap to `onhup`, and returned. -/
def waitingHupFinal : Sys :=
  ⟨⟨⟨3, false, [OpCall.Control PollEvent.PollWritable none, OpCall.Free]⟩, 1, ⟨false⟩,
      ⟨true⟩⟩,
    [Thread.WaitWrite ⟨some (ErrVal.other 2)⟩ (WaitPc.ret peerClosed),
     Thread.onhup (OnhupPc.ret none)], false⟩

/-- The schedule from `waitingHupClosed` to `waitingHupFinal`. -/
def waitingHupSchedule : List Action :=
  [Action.cancel 0 (ErrVal.other 2), Action.step 0 (Oracle.ok Branch.ctxDone),
   Action.step 1 (Oracle.ok Branch.ctxDone), Action.step 1 (Oracle.ok Branch.ctxDone),
   Action.step 0 (Oracle.ok Branch.ctxDone), Action.step 0 (Oracle.ok Branch.ctxDone),
   Action.step 0 (Oracle.ok Branch.ctxDone)]

/-- A schedule for `[WaitWrite, onwrite, WaitWrite]` on a new descriptor: the
first `WaitWrite` arms and suspends, `onwrite` closes `writeTrigger`, the first
`WaitWrite` returns, then the second one runs to its end. -/
def twoWaitsSchedule : List Action :=
  [Action.step 0 (Oracle.ok Branch.writeTrigger), Action.step 0 (Oracle.ok Branch.writeTrigger),
   Action.step 1 (Oracle.ok Branch.writeTrigger), Action.step 1 (Oracle.ok Branch.writeTrigger),
   Action.step 0 (Oracle.ok Branch.writeTrigger), Action.step 0 (Oracle.ok Branch.writeTrigger),
   Action.step 2 (Oracle.ok Branch.writeTrigger), Action.step 2 (Oracle.ok Branch.writeTrigger),
   Action.step 2 (Oracle.ok Branch.writeTrigger)]

/-- The state `twoWaitsSchedule` ends in. -/
def twoWaitsFinal : Sys :=
  ⟨⟨⟨3, false, [OpCall.Control PollEvent.PollWritable none]⟩, 0, ⟨true⟩, ⟨false⟩⟩,
    [Thread.WaitWrite ⟨none⟩ (WaitPc.ret none), Thread.onwrite (OnwritePc.ret none),
     Thread.WaitWrite ⟨none⟩ (WaitPc.ret none)], false⟩

/-- Scenario A, first half, for `[WaitWrite, onwrite]` on a new descriptor:
`WaitWrite` arms and suspends, `onwrite` closes `writeTrigger`. -/
def writableSchedule : List Action :=
  [Action.step 0 (Oracle.ok Branch.writeTrigger), Action.step 0 (Oracle.ok Branch.writeTrigger),
   Action.step 1 (Oracle.ok Branch.writeTrigger), Action.step 1 (Oracle.ok Branch.writeTrigger)]

/-- The state `writableSchedule` ends in: `WaitWrite` in its wait,
`writeTrigger` closed. -/
def writableWaiting : Sys :=
  ⟨⟨⟨3, false, [OpCall.Control PollEvent.PollWritable none]⟩, 0, ⟨true⟩, ⟨false⟩⟩,
    [Thread.WaitWrite ⟨none⟩ WaitPc.select, Thread.onwrite (OnwritePc.ret none)], false⟩

/-- The state after the wait of `writableWaiting` has resolved. -/
def writableResolved : Sys :=
  ⟨⟨⟨3, false, [OpCall.Control PollEvent.PollWritable none]⟩, 0, ⟨true⟩, ⟨false⟩⟩,
    [Thread.WaitWrite ⟨none⟩ (WaitPc.recheck none), Thread.onwrite (OnwritePc.ret none)],
    false⟩

/-- The state after `WaitWrite` has returned nil. -/
def writableFinal : Sys :=
  ⟨⟨⟨3, false, [OpCall.Control PollEvent.PollWritable none]⟩, 0, ⟨true⟩, ⟨false⟩⟩,
    [Thread.WaitWrite ⟨none⟩ (WaitPc.ret none), Thread.onwrite (OnwritePc.ret none)], false⟩

/-- A schedule for `[WaitWrite, onwrite]` on a new descriptor: `WaitWrite` arms
and suspends, `onwrite` closes `writeTrigger`, the context is cancelled, and
then the `select`, with two cases ready, takes `writeTrigger`. -/
def writableAndDoneSchedule : List Action :=
  [Action.step 0 (Oracle.ok Branch.writeTrigger), Action.step 0 (Oracle.ok Branch.writeTrigger),
   Action.step 1 (Oracle.ok Branch.writeTrigger), Action.step 1 (Oracle.ok Branch.writeTrigger),
   Action.cancel 0 (ErrVal.other 2),
   Action.step 0 (Oracle.ok Branch.writeTrigger), Action.step 0 (Oracle.ok Branch.writeTrigger)]

/-- The state after the first five actions of `writableAndDoneSchedule`:
`WaitWrite` in its wait, `writeTrigger` closed and the context done. -/
def writableAndDone : Sys :=
  ⟨⟨⟨3, false, [OpCall.Control PollEvent.PollWritable none]⟩, 0, ⟨true⟩, ⟨false⟩⟩,
    [Thread.WaitWrite ⟨some (ErrVal.other 2)⟩ WaitPc.select,
     Thread.onwrite (OnwritePc.ret none)], false⟩

/-- The state `writableAndDoneSchedule` ends in. -/
def writableAndDoneFinal : Sys :=
  ⟨⟨⟨3, false, [OpCall.Control PollEvent.PollWritable none]⟩, 0, ⟨true⟩, ⟨false⟩⟩,
    [Thread.WaitWrite ⟨some (ErrVal.other 2)⟩ (WaitPc.ret none),
     Thread.onwrite (OnwritePc.ret none)], false⟩

/-- Scenario C: a `WaitWrite` invocation in its wait on an armed descriptor, no
event fired, its context done. -/
def onlyDone : Sys :=
  ⟨⟨⟨3, false, [OpCall.Control PollEvent.PollWritable none]⟩, 0, ⟨false⟩, ⟨false⟩⟩,
    [Thread.WaitWrite ⟨some (ErrVal.other 2)⟩ WaitPc.select], false⟩

/-- The state after the wait of `onlyDone` has resolved. -/
def onlyDoneResolved : Sys :=
  ⟨⟨⟨3, false, [OpCall.Control PollEvent.PollWritable none]⟩, 0, ⟨false⟩, ⟨false⟩⟩,
    [Thread.WaitWrite ⟨some (ErrVal.other 2)⟩ (WaitPc.detach DetachPc.cas)], false⟩

/-- The state `onlyDone` ends in. -/
def onlyDoneFinal : Sys :=
  ⟨⟨⟨3, false, [OpCall.Control PollEvent.PollWritable none,
        OpCall.Control PollEvent.PollDetach none, OpCall.Free]⟩, 1, ⟨false⟩, ⟨false⟩⟩,
    [Thread.WaitWrite ⟨some (ErrVal.other 2)⟩ (WaitPc.ret (some (ErrVal.other 2)))], false⟩

/-! ## Auxiliary facts -/

theorem countP_set_add {α : Type} (p : α → Bool) (l : List α) (i : Nat) (t a : α)
    (h : l[i]? = some t) :
    (l.set i a).countP p + (if p t then 1 else 0) = l.countP p + (if p a then 1 else 0) := by
  induction l generalizing i with
  | nil => simp at h
  | cons x l ih =>
    cases i with
    | zero =>
      simp at h
      subst h
      simp [List.countP_cons]
      omega
    | succ i =>
      simp at h
      have := ih i h
      simp [List.countP_cons]
      omega

theorem mem_set_cases {α : Type} (l : List α) (i : Nat) (a b : α) (h : b ∈ l.set i a) :
    b ∈ l ∨ b = a := by
  induction l generalizing i with
  | nil => simp at h
  | cons x l ih =>
    cases i with
    | zero =>
      simp at h
      rcases h with h | h
      · exact Or.inr h
      · exact Or.inl (List.mem_cons_of_mem _ h)
    | succ i =>
      simp at h
      rcases h with h | h
      · exact Or.inl (by simp [h])
      · rcases ih i h with h | h
        · exact Or.inl (List.mem_cons_of_mem _ h)
        · exact Or.inr h

/-- The statements of `detach`, case by case. -/
theorem detach_step_cases (pd pd' : pollDesc) (ctl : Error) (pc pc' : DetachPc)
    (h : pc.step pd ctl = some (pd', pc')) :
    (pc = DetachPc.cas ∧ pd.closed = 0 ∧ pd' = { pd with closed := 1 } ∧
        pc' = DetachPc.control) ∨
    (pc = DetachPc.cas ∧ pd.closed ≠ 0 ∧ pd' = pd ∧ pc' = DetachPc.ret) ∨
    (pc = DetachPc.control ∧ ctl.isSome = true ∧
        pd' = { pd with operator := (pd.operator.Control PollEvent.PollDetach ctl).1 } ∧
        pc' = DetachPc.ret) ∨
    (pc = DetachPc.control ∧ ctl = none ∧
        pd' = { pd with operator := (pd.operator.Control PollEvent.PollDetach ctl).1 } ∧
        pc' = DetachPc.free) ∨
    (pc = DetachPc.free ∧ pd' = { pd with operator := pd.operator.Free } ∧
        pc' = DetachPc.ret) := by
  cases pc with
  | cas =>
    by_cases hc : pd.closed = 0
    · simp [DetachPc.step, CompareAndSwapInt32, hc] at h
      simp [hc, h.1.symm, h.2.symm]
    · simp [DetachPc.step, CompareAndSwapInt32, hc] at h
      simp [hc, h.1.symm, h.2.symm]
  | control =>
    cases hctl : ctl with
    | none =>
      simp [DetachPc.step, FDOperator.Control, hctl] at h
      simp [FDOperator.Control, h.1.symm, h.2.symm]
    | some e =>
      simp [DetachPc.step, FDOperator.Control, hctl] at h
      simp [FDOperator.Control, h.1.symm, h.2.symm]
  | free =>
    simp [DetachPc.step] at h
    simp [h.1.symm, h.2.symm]
  | ret => simp [DetachPc.step] at h

/-- What one statement of `detach` does to the quantities of the release
invariant; `hold` tells whether a point of `detach` holds the right to
release. -/
theorem detach_step_release (pd pd' : pollDesc) (ctl : Error) (pc pc' : DetachPc)
    (h : pc.step pd ctl = some (pd', pc')) :
    pd.frees ≤ pd'.frees ∧ pd.failedDetaches ≤ pd'.failedDetaches ∧
    (pc ≠ DetachPc.cas → pc' ≠ DetachPc.cas) ∧
    (pc' ≠ DetachPc.cas → pc ≠ DetachPc.cas ∨ pd'.closed ≠ 0) ∧
    (pd.closed ≠ 0 → pd'.closed ≠ 0) ∧
    ((pd'.closed = pd.closed ∧
        pd'.frees + pd'.failedDetaches +
            (if (Thread.detach pc').holds then 1 else 0)
          = pd.frees + pd.failedDetaches + (if (Thread.detach pc).holds then 1 else 0)) ∨
      (pd.closed = 0 ∧ pd'.closed ≠ 0 ∧ (Thread.detach pc).holds = false ∧
        (Thread.detach pc').holds = true ∧
        pd'.frees = pd.frees ∧ pd'.failedDetaches = pd.failedDetaches)) := by
  rcases detach_step_cases pd pd' ctl pc pc' h with
    ⟨rfl, hc, rfl, rfl⟩ | ⟨rfl, hc, rfl, rfl⟩ | ⟨rfl, hc, rfl, rfl⟩ | ⟨rfl, hc, rfl, rfl⟩ |
    ⟨rfl, rfl, rfl⟩
  · simp [Thread.holds, pollDesc.frees, pollDesc.failedDetaches, hc]
  · simp [Thread.holds, pollDesc.frees, pollDesc.failedDetaches, hc]
  · cases ctl with
    | none => simp at hc
    | some e =>
      simp [Thread.holds, pollDesc.frees, pollDesc.failedDetaches, FDOperator.Control,
        OpCall.isFailedDetach, List.count_cons]
      omega
  · subst hc
    simp [Thread.holds, pollDesc.frees, pollDesc.failedDetaches, FDOperator.Control,
      OpCall.isFailedDetach, List.count_cons]
  · simp [Thread.holds, pollDesc.frees, pollDesc.failedDetaches, FDOperator.Free,
      OpCall.isFailedDetach, List.count_cons]
    omega

/-- What one statement of a thread does to the quantities of the release
invariant. -/
theorem thread_step_release (mapErr : Error → Error) (pd pd' : pollDesc) (o : Oracle)
    (t t' : Thread) (h : t.step mapErr pd o = some (Except.ok (pd', t'))) :
    pd.frees ≤ pd'.frees ∧ pd.failedDetaches ≤ pd'.failedDetaches ∧
    (t.claimed = true → t'.claimed = true) ∧
    (t'.claimed = true → t.claimed = true ∨ pd'.closed ≠ 0) ∧
    (pd.closed ≠ 0 → pd'.closed ≠ 0) ∧
    ((pd'.closed = pd.closed ∧
        pd'.frees + pd'.failedDetaches + (if t'.holds then 1 else 0)
          = pd.frees + pd.failedDetaches + (if t.holds then 1 else 0)) ∨
      (pd.closed = 0 ∧ pd'.closed ≠ 0 ∧ t.holds = false ∧ t'.holds = true ∧
        pd'.frees = pd.frees ∧ pd'.failedDetaches = pd.failedDetaches)) := by
  cases t with
  | onwrite pc =>
    cases pc with
    | select =>
      by_cases hr : pd.writeTrigger.recvReady = true
      · simp [Thread.step, hr] at h
        obtain ⟨rfl, rfl⟩ := h
        simp [Thread.claimed, Thread.holds]
      · simp [Thread.step, hr] at h
        obtain ⟨rfl, rfl⟩ := h
        simp [Thread.claimed, Thread.holds]
    | close =>
      by_cases hr : pd.writeTrigger.isClosed = true
      · simp [Thread.step, Chan.close, hr] at h
      · simp [Thread.step, Chan.close, hr] at h
        obtain ⟨rfl, rfl⟩ := h
        simp [Thread.claimed, Thread.holds, pollDesc.frees, pollDesc.failedDetaches]
    | ret e => simp [Thread.step] at h
  | onhup pc =>
    cases pc with
    | select =>
      by_cases hr : pd.closeTrigger.recvReady = true
      · simp [Thread.step, hr] at h
        obtain ⟨rfl, rfl⟩ := h
        simp [Thread.claimed, Thread.holds]
      · simp [Thread.step, hr] at h
        obtain ⟨rfl, rfl⟩ := h
        simp [Thread.claimed, Thread.holds]
    | close =>
      by_cases hr : pd.closeTrigger.isClosed = true
      · simp [Thread.step, Chan.close, hr] at h
      · simp [Thread.step, Chan.close, hr] at h
        obtain ⟨rfl, rfl⟩ := h
        simp [Thread.claimed, Thread.holds, pollDesc.frees, pollDesc.failedDetaches]
    | cas =>
      by_cases hc : pd.closed = 0
      · simp [Thread.step, CompareAndSwapInt32, hc] at h
        obtain ⟨rfl, rfl⟩ := h
        simp [Thread.claimed, Thread.holds, pollDesc.frees, pollDesc.failedDetaches, hc]
      · simp [Thread.step, CompareAndSwapInt32, hc] at h
        obtain ⟨rfl, rfl⟩ := h
        simp [Thread.claimed, Thread.holds, hc]
    | free =>
      simp [Thread.step] at h
      obtain ⟨rfl, rfl⟩ := h
      simp [Thread.claimed, Thread.holds, pollDesc.frees, pollDesc.failedDetaches,
        FDOperator.Free, List.count_cons, List.countP_cons, OpCall.isFailedDetach]
      omega
    | ret e => simp [Thread.step] at h
  | detach pc =>
    cases hs : pc.step pd o.detach with
    | none => simp [Thread.step, hs] at h
    | some r =>
      obtain ⟨pd1, pc1⟩ := r
      simp [Thread.step, hs] at h
      obtain ⟨rfl, rfl⟩ := h
      obtain ⟨h1, h2, h3, h4, h5, h6⟩ := detach_step_release pd pd1 o.detach pc pc1 hs
      refine ⟨h1, h2, ?_, ?_, h5, h6⟩
      · cases pc <;> cases pc1 <;> simp [Thread.claimed] at h3 ⊢
      · cases pc <;> cases pc1 <;> simp [Thread.claimed] at h4 ⊢ <;> exact h4
  | WaitWrite ctx pc =>
    cases pc with
    | entry =>
      by_cases hu : pd.operator.isUnused = true
      · simp [Thread.step, hu] at h
        obtain ⟨rfl, rfl⟩ := h
        simp [Thread.claimed, Thread.holds]
      · simp [Thread.step, hu] at h
        obtain ⟨rfl, rfl⟩ := h
        simp [Thread.claimed, Thread.holds]
    | arm =>
      cases ha : o.arm with
      | none =>
        simp [Thread.step, FDOperator.Control, ha] at h
        obtain ⟨rfl, rfl⟩ := h
        simp [Thread.claimed, Thread.holds, pollDesc.frees, pollDesc.failedDetaches,
          OpCall.isFailedDetach, List.count_cons]
      | some e =>
        simp [Thread.step, FDOperator.Control, ha] at h
        obtain ⟨rfl, rfl⟩ := h
        simp [Thread.claimed, Thread.holds, pollDesc.frees, pollDesc.failedDetaches,
          OpCall.isFailedDetach, List.count_cons]
    | select =>
      cases hsel : select3 pd.closeTrigger.recvReady pd.writeTrigger.recvReady
          ctx.doneReady o.branch with
      | none => simp [Thread.step, hsel] at h
      | some b =>
        cases b <;> simp [Thread.step, hsel] at h <;> obtain ⟨rfl, rfl⟩ := h <;>
          simp [Thread.claimed, Thread.holds]
    | detach pc =>
      cases hs : pc.step pd o.detach with
      | none =>
        simp [Thread.step, hs] at h
        obtain ⟨rfl, rfl⟩ := h
        cases pc <;> simp [DetachPc.step] at hs
        · split at hs <;> simp at hs
        · split at hs <;> simp at hs
        · simp [Thread.claimed, Thread.holds]
      | some r =>
        obtain ⟨pd1, pc1⟩ := r
        simp [Thread.step, hs] at h
        obtain ⟨rfl, rfl⟩ := h
        obtain ⟨h1, h2, _, _, h5, h6⟩ := detach_step_release pd pd1 o.detach pc pc1 hs
        refine ⟨h1, h2, ?_, ?_, h5, ?_⟩
        · simp [Thread.claimed]
        · simp [Thread.claimed]
        · cases pc <;> cases pc1 <;> simpa [Thread.holds] using h6
    | recheck e =>
      simp [Thread.step] at h
      obtain ⟨rfl, rfl⟩ := h
      simp [Thread.claimed, Thread.holds]
    | ret e => simp [Thread.step] at h

/-- The transitions of the system, case by case: a statement of a thread, a
panic, or the cancellation of a context. -/
theorem sys_step_cases (mapErr : Error → Error) (s s' : Sys) (a : Action)
    (h : s.step mapErr a = some s') :
    s.crashed = false ∧
    ((∃ tid o t pd t', a = Action.step tid o ∧ s.threads[tid]? = some t ∧
        t.step mapErr s.pd o = some (Except.ok (pd, t')) ∧
        s' = { s with pd := pd, threads := s.threads.set tid t' }) ∨
      (∃ tid o t p, a = Action.step tid o ∧ s.threads[tid]? = some t ∧
        t.step mapErr s.pd o = some (Except.error p) ∧ s' = { s with crashed := true }) ∨
      (∃ tid err ctx pc, a = Action.cancel tid err ∧
        s.threads[tid]? = some (Thread.WaitWrite ctx pc) ∧ ctx.Err = none ∧
        s' = { s with threads := s.threads.set tid (Thread.WaitWrite ⟨some err⟩ pc) })) := by
  cases a with
  | step tid o =>
    cases hc : s.crashed with
    | true => simp [Sys.step, hc] at h
    | false =>
      refine ⟨rfl, ?_⟩
      cases ht : s.threads[tid]? with
      | none => simp [Sys.step, hc, ht] at h
      | some t =>
        cases hs : t.step mapErr s.pd o with
        | none => simp [Sys.step, hc, ht, hs] at h
        | some r =>
          cases r with
          | error p =>
            simp [Sys.step, hc, ht, hs] at h
            exact Or.inr (Or.inl ⟨tid, o, t, p, rfl, ht, hs, h.symm⟩)
          | ok r =>
            obtain ⟨pd, t'⟩ := r
            simp [Sys.step, hc, ht, hs] at h
            exact Or.inl ⟨tid, o, t, pd, t', rfl, ht, hs, h.symm⟩
  | cancel tid err =>
    cases hc : s.crashed with
    | true => simp [Sys.step, hc] at h
    | false =>
      refine ⟨rfl, Or.inr (Or.inr ?_)⟩
      cases ht : s.threads[tid]? with
      | none => simp [Sys.step, hc, ht] at h
      | some t =>
        cases t with
        | WaitWrite ctx pc =>
          cases hd : ctx.Err with
          | some e => simp [Sys.step, hc, ht, Context.doneReady, hd] at h
          | none =>
            simp [Sys.step, hc, ht, Context.doneReady, hd] at h
            exact ⟨tid, err, ctx, pc, rfl, ht, hd, h.symm⟩
        | onwrite pc => simp [Sys.step, hc, ht] at h
        | onhup pc => simp [Sys.step, hc, ht] at h
        | detach pc => simp [Sys.step, hc, ht] at h

/-- Executions, one transition at a time: a property kept by every transition
is kept by every execution. -/
theorem run_induction (mapErr : Error → Error) (P : Sys → Prop)
    (hstep : ∀ s s' a, P s → s.step mapErr a = some s' → P s')
    (s s' : Sys) (acts : List Action) (h0 : P s) (h : s.run mapErr acts = some s') : P s' := by
  induction acts generalizing s with
  | nil =>
    simp [Sys.run] at h
    exact h ▸ h0
  | cons a as ih =>
    cases hs : s.step mapErr a with
    | none => simp [Sys.run, hs] at h
    | some s1 =>
      simp [Sys.run, hs] at h
      exact ih s1 (hstep s s1 a h0 hs) h

/-- Every transition keeps the release invariant. -/
theorem step_releaseInv (mapErr : Error → Error) (f0 : Nat) (s s' : Sys) (a : Action)
    (hinv : s.releaseInv f0) (h : s.step mapErr a = some s') : s'.releaseInv f0 := by
  obtain ⟨hf, h0, h1⟩ := hinv
  rcases (sys_step_cases mapErr s s' a h).2 with
    ⟨tid, o, t, pd, t', rfl, ht, hs, rfl⟩ | ⟨tid, o, t, p, rfl, ht, hs, rfl⟩ |
    ⟨tid, err, ctx, pc, rfl, ht, hd, rfl⟩
  · obtain ⟨l1, l2, l3, l4, l5, l6⟩ := thread_step_release mapErr s.pd pd o t t' hs
    have hcnt := countP_set_add Thread.holds s.threads tid t t' ht
    have hmem : t ∈ s.threads := List.getElem?_mem ht
    simp only [Sys.releaseInv, Sys.holders] at *
    refine ⟨le_trans hf l2, ?_, ?_⟩
    · intro hc'
      have hc : s.pd.closed = 0 := by
        by_contra hne
        exact l5 hne hc'
      obtain ⟨i1, i2, i3, i4⟩ := h0 hc
      have hth : t.holds = false := by
        cases hh : t.holds with
        | false => rfl
        | true =>
          have : 0 < s.threads.countP Thread.holds :=
            List.countP_pos_iff.mpr ⟨t, hmem, hh⟩
          omega
      rcases l6 with ⟨_, l6⟩ | ⟨_, hne, _⟩
      · simp only [hth] at l6 hcnt
        simp at l6 hcnt
        refine ⟨by omega, by omega, ?_, ?_⟩
        · by_cases hh' : t'.holds = true
          · simp [hh'] at l6
            omega
          · simp [hh'] at hcnt
            omega
        · intro x hx
          rcases mem_set_cases _ _ _ _ hx with hx | rfl
          · exact i4 x hx
          · cases hcl : x.claimed with
            | false => rfl
            | true =>
              rcases l4 hcl with h4 | h4
              · rw [i4 t hmem] at h4
                simp at h4
              · exact absurd hc' h4
      · exact absurd hc' hne
    · intro hc'
      rcases l6 with ⟨heq, l6⟩ | ⟨hz, _, hth, hth', e1, e2⟩
      · have hc : s.pd.closed ≠ 0 := by rw [← heq]; exact hc'
        have := h1 hc
        have hle : (if t.holds = true then 1 else 0) ≤ s.threads.countP Thread.holds := by
          by_cases hh : t.holds = true
          · have : 0 < s.threads.countP Thread.holds :=
              List.countP_pos_iff.mpr ⟨t, hmem, hh⟩
            rw [if_pos hh]
            exact this
          · simp [hh]
        omega
      · obtain ⟨i1, i2, i3, i4⟩ := h0 hz
        simp [hth, hth'] at hcnt
        omega
  · exact ⟨hf, h0, h1⟩
  · have hcnt := countP_set_add Thread.holds s.threads tid (Thread.WaitWrite ctx pc)
      (Thread.WaitWrite ⟨some err⟩ pc) ht
    have hsame : (Thread.WaitWrite ⟨some err⟩ pc).holds = (Thread.WaitWrite ctx pc).holds := by
      cases pc <;> try rfl
      case detach pc => cases pc <;> rfl
    rw [hsame] at hcnt
    simp only [Sys.releaseInv, Sys.holders] at *
    have hcnt' : (s.threads.set tid (Thread.WaitWrite ⟨some err⟩ pc)).countP Thread.holds
        = s.threads.countP Thread.holds := by omega
    refine ⟨hf, ?_, ?_⟩
    · intro hc
      obtain ⟨i1, i2, i3, i4⟩ := h0 hc
      refine ⟨i1, i2, by omega, ?_⟩
      intro x hx
      rcases mem_set_cases _ _ _ _ hx with hx | rfl
      · exact i4 x hx
      · rfl
    · intro hc
      have := h1 hc
      omega

/-- A system about to start, on a descriptor with `closed = 0` and no `Free()`
call made, satisfies the release invariant. -/
theorem init_releaseInv (pd : pollDesc) (calls : List Call) (hc : pd.closed = 0)
    (hf : pd.frees = 0) : (Sys.init pd calls).releaseInv pd.failedDetaches := by
  have hstart : ∀ c : Call, c.start.holds = false ∧ c.start.claimed = false := by
    intro c
    cases c <;> exact ⟨rfl, rfl⟩
  refine ⟨le_refl _, ?_, ?_⟩
  · intro _
    refine ⟨hf, rfl, ?_, ?_⟩
    · simp only [Sys.holders, Sys.init]
      rw [List.countP_eq_zero]
      intro t ht
      obtain ⟨c, _, rfl⟩ := List.mem_map.mp ht
      simp [(hstart c).1]
    · intro t ht
      obtain ⟨c, _, rfl⟩ := List.mem_map.mp ht
      exact (hstart c).2
  · intro hne
    exact absurd hc hne

/-- Every state of every execution from such a start satisfies the release
invariant. -/
theorem run_releaseInv (mapErr : Error → Error) (pd : pollDesc) (calls : List Call)
    (acts : List Action) (s : Sys) (hc : pd.closed = 0) (hf : pd.frees = 0)
    (h : (Sys.init pd calls).run mapErr acts = some s) : s.releaseInv pd.failedDetaches :=
  run_induction mapErr (Sys.releaseInv pd.failedDetaches)
    (fun s s' a hi hs => step_releaseInv mapErr _ s s' a hi hs) _ _ acts
    (init_releaseInv pd calls hc hf) h

theorem map_set_same {α β : Type} (f : α → β) (l : List α) (i : Nat) (t a : α)
    (h : l[i]? = some t) (hf : f a = f t) : (l.set i a).map f = l.map f := by
  induction l generalizing i with
  | nil => simp
  | cons x l ih =>
    cases i with
    | zero =>
      simp at h
      subst h
      simp [hf]
    | succ i =>
      simp at h
      simp [ih i h]

/-- A statement never turns an invocation into one of another method. -/
theorem thread_step_isRelease (mapErr : Error → Error) (pd pd' : pollDesc) (o : Oracle)
    (t t' : Thread) (h : t.step mapErr pd o = some (Except.ok (pd', t'))) :
    t'.isRelease = t.isRelease := by
  cases t with
  | onwrite pc =>
    cases pc <;> simp [Thread.step, Chan.close] at h
    · split at h <;> simp at h <;> rw [← h.2] <;> rfl
    · split at h <;> simp at h
      rw [← h.2]
      rfl
  | onhup pc =>
    cases pc <;> simp [Thread.step, Chan.close, CompareAndSwapInt32] at h
    · split at h <;> simp at h <;> rw [← h.2] <;> rfl
    · split at h <;> simp at h
      rw [← h.2]
      rfl
    · split at h <;> simp at h <;> rw [← h.2] <;> rfl
    · rw [← h.2]
      rfl
  | detach pc =>
    cases hs : pc.step pd o.detach with
    | none => simp [Thread.step, hs] at h
    | some r =>
      simp [Thread.step, hs] at h
      rw [← h.2]
      rfl
  | WaitWrite ctx pc =>
    cases pc with
    | entry =>
      simp [Thread.step] at h
      split at h <;> simp at h <;> rw [← h.2] <;> rfl
    | arm =>
      simp [Thread.step] at h
      split at h <;> simp at h <;> rw [← h.2] <;> rfl
    | select =>
      simp [Thread.step] at h
      split at h <;> simp at h <;> rw [← h.2] <;> rfl
    | detach pc =>
      simp [Thread.step] at h
      split at h <;> simp at h <;> rw [← h.2] <;> rfl
    | recheck e =>
      simp [Thread.step] at h
      rw [← h.2]
      rfl
    | ret e => simp [Thread.step] at h

/-- Along an execution the invocations stay what they were. -/
theorem run_isRelease (mapErr : Error → Error) (s s' : Sys) (acts : List Action)
    (h : s.run mapErr acts = some s') :
    s'.threads.map Thread.isRelease = s.threads.map Thread.isRelease := by
  refine run_induction mapErr
    (fun x => x.threads.map Thread.isRelease = s.threads.map Thread.isRelease) ?_ s s' acts rfl h
  intro x x' a hx hstep
  rcases (sys_step_cases mapErr x x' a hstep).2 with
    ⟨tid, o, t, pd, t', rfl, ht, hs, rfl⟩ | ⟨tid, o, t, p, rfl, ht, hs, rfl⟩ |
    ⟨tid, err, ctx, pc, rfl, ht, hd, rfl⟩
  · rw [← hx]
    exact map_set_same _ _ _ _ _ ht (thread_step_isRelease mapErr _ _ _ _ _ hs)
  · exact hx
  · rw [← hx]
    exact map_set_same _ _ _ _ _ ht rfl

/-! ## Release: at most once, and when exactly once -/

/-- C1 (at-most-once release). Start from any descriptor with `closed = 0` on
whose operator `Free()` has not been called, with any invocations of `onhup`,
`detach` (and `onwrite`, `WaitWrite`) about to start. After any finite
interleaving of their statements - the `Control(PollDetach)` calls succeeding
or failing as they will - `operator.Free()` has been called at most once. -/
theorem release_at_most_once (mapErr : Error → Error) (pd : pollDesc) (calls : List Call)
    (acts : List Action) (s : Sys) (hc : pd.closed = 0) (hf : pd.frees = 0)
    (h : (Sys.init pd calls).run mapErr acts = some s) : s.pd.frees ≤ 1 := by
  obtain ⟨h0, h1, h2⟩ := run_releaseInv mapErr pd calls acts s hc hf h
  by_cases hz : s.pd.closed = 0
  · have := (h1 hz).1
    omega
  · have := h2 hz
    omega

/-- C2, as amended (exactly-once release unless the detach fails). Start from
a descriptor with `closed = 0` on whose operator neither `Free()` nor a failing
`Control(PollDetach)` has been recorded, with invocations about to start among
which there is an `onhup` or a `detach`. Once all invocations have returned,
the number of `Free()` calls plus the number of `Control(PollDetach)` calls
that returned an error is exactly 1: `Free()` was called exactly once if no
`Control(PollDetach)` failed, and not at all if the detach that won the
compare-and-swap had its `Control(PollDetach)` fail. -/
theorem release_exactly_once_unless_detach_fails (mapErr : Error → Error) (pd : pollDesc)
    (calls : List Call) (acts : List Action) (s : Sys) (hc : pd.closed = 0)
    (hf : pd.frees = 0) (hd : pd.failedDetaches = 0)
    (hk : Call.onhup ∈ calls ∨ Call.detach ∈ calls)
    (h : (Sys.init pd calls).run mapErr acts = some s)
    (hall : ∀ t ∈ s.threads, t.returned = true) :
    s.pd.frees + s.pd.failedDetaches = 1 := by
  obtain ⟨h0, h1, h2⟩ := run_releaseInv mapErr pd calls acts s hc hf h
  have hkinds := run_isRelease mapErr _ _ _ h
  have hex : ∃ t ∈ s.threads, t.isRelease = true := by
    have : true ∈ (Sys.init pd calls).threads.map Thread.isRelease := by
      rcases hk with hk | hk
      · exact List.mem_map.mpr ⟨Call.onhup.start, List.mem_map.mpr ⟨_, hk, rfl⟩, rfl⟩
      · exact List.mem_map.mpr ⟨Call.detach.start, List.mem_map.mpr ⟨_, hk, rfl⟩, rfl⟩
    rw [← hkinds] at this
    obtain ⟨t, ht, hr⟩ := List.mem_map.mp this
    exact ⟨t, ht, hr⟩
  obtain ⟨t, ht, hr⟩ := hex
  have hcl : t.claimed = true := by
    have hret := hall t ht
    cases t with
    | onwrite pc => simp [Thread.isRelease] at hr
    | WaitWrite ctx pc => simp [Thread.isRelease] at hr
    | onhup pc => cases pc <;> simp [Thread.returned] at hret; rfl
    | detach pc => cases pc <;> simp [Thread.returned] at hret; rfl
  have hne : s.pd.closed ≠ 0 := by
    intro hz
    have := (h1 hz).2.2.2 t ht
    rw [hcl] at this
    simp at this
  have hsum := h2 hne
  have hhold : s.holders = 0 := by
    simp only [Sys.holders]
    rw [List.countP_eq_zero]
    intro x hx
    have hret := hall x hx
    cases x with
    | onwrite pc => simp [Thread.holds]
    | onhup pc => cases pc <;> simp [Thread.returned] at hret; simp [Thread.holds]
    | detach pc => cases pc <;> simp [Thread.returned] at hret; simp [Thread.holds]
    | WaitWrite ctx pc => cases pc <;> simp [Thread.returned] at hret; simp [Thread.holds]
  omega

/-- A witness of C1: `onhup` and `detach` race on a new descriptor, `detach`
wins the compare-and-swap, and `Free()` is called once. -/
theorem release_at_most_once_witness :
    (newPollDesc FDOperator.fresh 3).closed = 0 ∧
    (newPollDesc FDOperator.fresh 3).frees = 0 ∧
    (Sys.init (newPollDesc FDOperator.fresh 3) [Call.onhup, Call.detach]).run id raceSchedule
      = some raceFinal ∧
    raceFinal.pd.frees ≤ 1 :=
  ⟨by decide, by decide, by decide,
    release_at_most_once id (newPollDesc FDOperator.fresh 3) [Call.onhup, Call.detach]
      raceSchedule raceFinal (by decide) (by decide) (by decide)⟩

/-- C2 as stated fails: a single `detach` on a new descriptor whose
`Control(PollDetach)` returns an error completes without any `Free()` call. -/
theorem release_exactly_once_counterexample :
    (Sys.init (newPollDesc FDOperator.fresh 3) [Call.detach]).run id
        [Action.step 0 (Oracle.detachFails (ErrVal.other 1)),
         Action.step 0 (Oracle.detachFails (ErrVal.other 1))]
      = some ⟨⟨⟨3, true, [OpCall.Control PollEvent.PollDetach (some (ErrVal.other 1))]⟩, 1,
          ⟨false⟩, ⟨false⟩⟩, [Thread.detach DetachPc.ret], false⟩ ∧
    Thread.returned (Thread.detach DetachPc.ret) = true ∧
    pollDesc.frees ⟨⟨3, true, [OpCall.Control PollEvent.PollDetach (some (ErrVal.other 1))]⟩,
      1, ⟨false⟩, ⟨false⟩⟩ = 0 :=
  ⟨by decide, by decide, by decide⟩

/-- A witness of C2 as amended: `detach` wins the compare-and-swap and its
`Control(PollDetach)` fails, then `onhup` runs; all have returned, with no
`Free()` call and one failed detach. -/
theorem release_exactly_once_unless_detach_fails_witness :
    (Sys.init (newPollDesc FDOperator.fresh 3) [Call.detach, Call.onhup]).run id
        failedDetachSchedule = some failedDetachFinal ∧
    (∀ t ∈ failedDetachFinal.threads, t.returned = true) ∧
    failedDetachFinal.pd.frees + failedDetachFinal.pd.failedDetaches = 1 :=
  ⟨by decide, by decide,
    release_exactly_once_unless_detach_fails id (newPollDesc FDOperator.fresh 3)
      [Call.detach, Call.onhup] failedDetachSchedule failedDetachFinal (by decide)
      (by decide) (by decide) (by decide) (by decide) (by decide)⟩

/-! ## Calls without interference -/

/-- C5 (detach after release is a no-op). On a descriptor whose `closed` flag
is not 0, `detach` leaves the descriptor as it was - in particular no call is
made on the operator, and `closed`, `writeTrigger` and `closeTrigger` keep their
values - whatever `Control(PollDetach)` would have answered; and the single
statement it executes, the failed compare-and-swap, goes straight to the return
without a panic. -/
theorem detach_after_release_noop (mapErr : Error → Error) (pd : pollDesc) (o : Oracle)
    (h : pd.closed ≠ 0) :
    pd.detach o.detach = pd ∧
    (Thread.detach DetachPc.cas).step mapErr pd o
      = some (Except.ok (pd, Thread.detach DetachPc.ret)) := by
  constructor
  · simp [pollDesc.detach, CompareAndSwapInt32, h]
  · simp [Thread.step, DetachPc.step, CompareAndSwapInt32, h]

/-- A witness of C5: after `onhup` has released, `closed` is 1 and `detach`
changes nothing. -/
theorem detach_after_release_noop_witness :
    (⟨⟨3, true, [OpCall.Free]⟩, 1, ⟨false⟩, ⟨true⟩⟩ : pollDesc).closed ≠ 0 ∧
    (⟨⟨3, true, [OpCall.Free]⟩, 1, ⟨false⟩, ⟨true⟩⟩ : pollDesc).detach
        (Oracle.ok Branch.ctxDone).detach
      = ⟨⟨3, true, [OpCall.Free]⟩, 1, ⟨false⟩, ⟨true⟩⟩ :=
  ⟨by decide,
    (detach_after_release_noop id ⟨⟨3, true, [OpCall.Free]⟩, 1, ⟨false⟩, ⟨true⟩⟩
      (Oracle.ok Branch.ctxDone) (by decide)).1⟩

theorem onwrite_eq (pd : pollDesc) :
    pd.onwrite = Except.ok ({ pd with writeTrigger := ⟨true⟩ }, none) := by
  cases hw : pd.writeTrigger.isClosed with
  | true =>
    have : pd.writeTrigger = ⟨true⟩ := by
      cases hc : pd.writeTrigger
      simp_all
    simp [pollDesc.onwrite, closeOnce, Chan.recvReady, hw, bind, Except.bind, pure,
      Except.pure, ← this]
  | false =>
    simp [pollDesc.onwrite, closeOnce, Chan.recvReady, Chan.close, hw, bind, Except.bind,
      pure, Except.pure]

theorem onhup_eq (pd : pollDesc) :
    pd.onhup = Except.ok
      ({ pd with
          closeTrigger := ⟨true⟩,
          closed := if pd.closed = 0 then 1 else pd.closed,
          operator := if pd.closed = 0 then pd.operator.Free else pd.operator }, none) := by
  have hc : closeOnce pd.closeTrigger = Except.ok ⟨true⟩ := by
    cases hw : pd.closeTrigger.isClosed with
    | true =>
      have : pd.closeTrigger = ⟨true⟩ := by
        cases hc : pd.closeTrigger
        simp_all
      simp [closeOnce, Chan.recvReady, hw, ← this]
    | false => simp [closeOnce, Chan.recvReady, Chan.close, hw]
  by_cases hz : pd.closed = 0
  · simp [pollDesc.onhup, hc, CompareAndSwapInt32, hz, bind, Except.bind, pure, Except.pure]
  · simp [pollDesc.onhup, hc, CompareAndSwapInt32, hz, bind, Except.bind, pure, Except.pure]

theorem callTimes_idem (f : pollDesc → Except Panic (pollDesc × Error))
    (g : pollDesc → pollDesc) (hf : ∀ pd, f pd = Except.ok (g pd, none))
    (hg : ∀ pd, g (g pd) = g pd) (n : Nat) (pd : pollDesc) :
    callTimes f (n + 1) pd = Except.ok (g pd, List.replicate (n + 1) none) := by
  induction n generalizing pd with
  | zero => simp [callTimes, hf]
  | succ n ih =>
    rw [callTimes, hf]
    simp only
    rw [ih (g pd), hg]
    rfl

/-- C6 (idempotent signals). On any descriptor and for any `n ≥ 1`, `n` calls
of `onwrite` in a row do not panic, each returns nil, and they leave the
descriptor as a single call does: `writeTrigger` closed and everything else as
it was (so a `closeTrigger` that was closed stays closed). Likewise `n` calls
of `onhup` do not panic, each returns nil, and they leave the descriptor as a
single call does: `closeTrigger` closed, `writeTrigger` as it was, and `Free()`
called once if `closed` was 0 and not at all otherwise - the repeated calls add
no `Free()` call. -/
theorem signals_idempotent (pd : pollDesc) (n : Nat) (hn : 1 ≤ n) :
    (pd.onwrite = Except.ok ({ pd with writeTrigger := ⟨true⟩ }, none) ∧
      callTimes pollDesc.onwrite n pd
        = Except.ok ({ pd with writeTrigger := ⟨true⟩ }, List.replicate n none)) ∧
    (pd.onhup = Except.ok
        ({ pd with
            closeTrigger := ⟨true⟩,
            closed := if pd.closed = 0 then 1 else pd.closed,
            operator := if pd.closed = 0 then pd.operator.Free else pd.operator }, none) ∧
      callTimes pollDesc.onhup n pd = Except.ok
        ({ pd with
            closeTrigger := ⟨true⟩,
            closed := if pd.closed = 0 then 1 else pd.closed,
            operator := if pd.closed = 0 then pd.operator.Free else pd.operator },
          List.replicate n none) ∧
      (if pd.closed = 0 then pd.operator.Free else pd.operator).calls.count OpCall.Free
        = pd.frees + (if pd.closed = 0 then 1 else 0)) := by
  obtain ⟨m, rfl⟩ : ∃ m, n = m + 1 := ⟨n - 1, by omega⟩
  refine ⟨⟨onwrite_eq pd, ?_⟩, onhup_eq pd, ?_, ?_⟩
  · exact callTimes_idem pollDesc.onwrite (fun pd => { pd with writeTrigger := ⟨true⟩ })
      onwrite_eq (fun _ => rfl) m pd
  · refine callTimes_idem pollDesc.onhup
      (fun pd => { pd with
          closeTrigger := ⟨true⟩,
          closed := if pd.closed = 0 then 1 else pd.closed,
          operator := if pd.closed = 0 then pd.operator.Free else pd.operator })
      onhup_eq ?_ m pd
    intro x
    by_cases hz : x.closed = 0 <;> simp [hz]
  · by_cases hz : pd.closed = 0 <;> simp [hz, pollDesc.frees, FDOperator.Free]

/-- A witness of C6: three calls of `onwrite`, and of `onhup`, on a new
descriptor. -/
theorem signals_idempotent_witness :
    1 ≤ 3 ∧
    callTimes pollDesc.onwrite 3 (newPollDesc FDOperator.fresh 3)
      = Except.ok (⟨⟨3, true, []⟩, 0, ⟨true⟩, ⟨false⟩⟩, [none, none, none]) ∧
    callTimes pollDesc.onhup 3 (newPollDesc FDOperator.fresh 3)
      = Except.ok (⟨⟨3, true, [OpCall.Free]⟩, 1, ⟨false⟩, ⟨true⟩⟩, [none, none, none]) :=
  ⟨by decide,
    (signals_idempotent (newPollDesc FDOperator.fresh 3) 3 (by decide)).1.2,
    (signals_idempotent (newPollDesc FDOperator.fresh 3) 3 (by decide)).2.2.1⟩

/-- C8 (arming failure is propagated immediately). If the operator is unused
on entry and `Control(PollWritable)` returns the error `e`, then `WaitWrite`
returns exactly `e` - whatever the signals and the context are, so also when no
case of the wait is ready - and it leaves the descriptor as the `Control` call
left it: `closed`, `writeTrigger` and `closeTrigger` unchanged, and the one
`Control(PollWritable)` call the only call made on the operator (no
`Control(PollDetach)`, no `Free()`). Statement by statement: the entry test
goes to the arming call, and the arming call goes straight to the return. -/
theorem arming_failure_propagated (mapErr : Error → Error) (pd : pollDesc) (ctx : Context)
    (o : Oracle) (e : ErrVal) (hu : pd.operator.isUnused = true) (ha : o.arm = some e) :
    pd.WaitWrite mapErr ctx o
      = (pd.afterControl PollEvent.PollWritable (some e), WaitResult.returned (some e)) ∧
    (pd.afterControl PollEvent.PollWritable (some e)).closed = pd.closed ∧
    (pd.afterControl PollEvent.PollWritable (some e)).writeTrigger = pd.writeTrigger ∧
    (pd.afterControl PollEvent.PollWritable (some e)).closeTrigger = pd.closeTrigger ∧
    (pd.afterControl PollEvent.PollWritable (some e)).operator.calls
      = pd.operator.calls ++ [OpCall.Control PollEvent.PollWritable (some e)] ∧
    (Thread.WaitWrite ctx WaitPc.entry).step mapErr pd o
      = some (Except.ok (pd, Thread.WaitWrite ctx WaitPc.arm)) ∧
    (Thread.WaitWrite ctx WaitPc.arm).step mapErr pd o
      = some (Except.ok (pd.afterControl PollEvent.PollWritable (some e),
          Thread.WaitWrite ctx (WaitPc.ret (some e)))) := by
  refine ⟨?_, rfl, rfl, rfl, rfl, ?_, ?_⟩
  · simp [pollDesc.WaitWrite, hu, ha, FDOperator.Control, pollDesc.afterControl]
  · simp [Thread.step, hu]
  · simp [Thread.step, ha, FDOperator.Control, pollDesc.afterControl]

/-- A witness of C8: on a new descriptor with nothing ready and a context that
is not done, a failing arming call makes `WaitWrite` return its error. -/
theorem arming_failure_propagated_witness :
    (newPollDesc FDOperator.fresh 3).operator.isUnused = true ∧
    (Oracle.armFails (ErrVal.other 7)).arm = some (ErrVal.other 7) ∧
    (newPollDesc FDOperator.fresh 3).WaitWrite id ⟨none⟩ (Oracle.armFails (ErrVal.other 7))
      = (⟨⟨3, false, [OpCall.Control PollEvent.PollWritable (some (ErrVal.other 7))]⟩, 0,
          ⟨false⟩, ⟨false⟩⟩, WaitResult.returned (some (ErrVal.other 7))) :=
  ⟨by decide, by decide,
    (arming_failure_propagated id (newPollDesc FDOperator.fresh 3) ⟨none⟩
      (Oracle.armFails (ErrVal.other 7)) (ErrVal.other 7) (by decide) (by decide)).1⟩

/-- C4 (fail-closed detach). On any descriptor with `closed = 0`, a `detach`
whose `Control(PollDetach)` returns the error `e` sets `closed` to 1, makes that
one call on the operator and no `Free()` call (the number of `Free()` calls is
unchanged), and - `detach` having no result - hands nothing back; statement by
statement, the failing `Control` call goes straight to the return. A `WaitWrite`
whose wait resolves through `ctx.Done()`, armed already or armed successfully,
then returns the mapped context error, or the peer-closed error if
`closeTrigger` is closed, exactly as if the detach had succeeded, and makes no
`Free()` call either. -/
theorem detach_fail_closed (mapErr : Error → Error) (pd : pollDesc) (ctx : Context)
    (o : Oracle) (e : ErrVal) (hc : pd.closed = 0) (hd : o.detach = some e) :
    (pd.detach o.detach
        = { pd.afterControl PollEvent.PollDetach (some e) with closed := 1 } ∧
      (pd.detach o.detach).frees = pd.frees ∧
      (pd.detach o.detach).operator.calls
        = pd.operator.calls ++ [OpCall.Control PollEvent.PollDetach (some e)] ∧
      (Thread.detach DetachPc.control).step mapErr pd o
        = some (Except.ok (pd.afterControl PollEvent.PollDetach (some e),
            Thread.detach DetachPc.ret))) ∧
    ((pd.operator.isUnused = true → o.arm = none) →
      select3 pd.closeTrigger.recvReady pd.writeTrigger.recvReady ctx.doneReady o.branch
        = some Branch.ctxDone →
      (pd.WaitWrite mapErr ctx o).2
          = WaitResult.returned
              (if pd.closeTrigger.isClosed then peerClosed else mapErr ctx.Err) ∧
        (pd.WaitWrite mapErr ctx o).2
          = (pd.WaitWrite mapErr ctx { o with detach := none }).2 ∧
        (pd.WaitWrite mapErr ctx o).1.frees = pd.frees) := by
  refine ⟨⟨?_, ?_, ?_, ?_⟩, ?_⟩
  · simp [pollDesc.detach, CompareAndSwapInt32, hc, hd, FDOperator.Control,
      pollDesc.afterControl]
  · simp [pollDesc.detach, CompareAndSwapInt32, hc, hd, FDOperator.Control, pollDesc.frees,
      List.count_cons]
  · simp [pollDesc.detach, CompareAndSwapInt32, hc, hd, FDOperator.Control]
  · simp [Thread.step, DetachPc.step, hd, FDOperator.Control, pollDesc.afterControl]
  · intro harm hsel
    simp only [Chan.recvReady] at hsel
    by_cases hu : pd.operator.isUnused = true
    · have ha := harm hu
      simp [pollDesc.WaitWrite, hu, ha, FDOperator.Control, hsel, pollDesc.detach,
        CompareAndSwapInt32, hc, hd, pollDesc.recheck, Chan.recvReady, pollDesc.frees,
        List.count_cons]
    · simp [pollDesc.WaitWrite, hu, FDOperator.Control, hsel, pollDesc.detach,
        CompareAndSwapInt32, hc, hd, pollDesc.recheck, Chan.recvReady, pollDesc.frees,
        List.count_cons]

/-- A witness of C4: an armed descriptor, a context that is done and nothing
else ready; the detach fails and `WaitWrite` returns the mapped context
error. -/
theorem detach_fail_closed_witness :
    (⟨⟨3, false, []⟩, 0, ⟨false⟩, ⟨false⟩⟩ : pollDesc).closed = 0 ∧
    (Oracle.detachFails (ErrVal.other 1)).detach = some (ErrVal.other 1) ∧
    (⟨⟨3, false, []⟩, 0, ⟨false⟩, ⟨false⟩⟩ : pollDesc).detach
        (Oracle.detachFails (ErrVal.other 1)).detach
      = ⟨⟨3, false, [OpCall.Control PollEvent.PollDetach (some (ErrVal.other 1))]⟩, 1,
          ⟨false⟩, ⟨false⟩⟩ ∧
    ((⟨⟨3, false, []⟩, 0, ⟨false⟩, ⟨false⟩⟩ : pollDesc).WaitWrite id
        ⟨some (ErrVal.other 2)⟩ (Oracle.detachFails (ErrVal.other 1))).2
      = WaitResult.returned (some (ErrVal.other 2)) :=
  ⟨by decide, by decide,
    (detach_fail_closed id ⟨⟨3, false, []⟩, 0, ⟨false⟩, ⟨false⟩⟩ ⟨some (ErrVal.other 2)⟩
      (Oracle.detachFails (ErrVal.other 1)) (ErrVal.other 1) (by decide) (by decide)).1.1,
    ((detach_fail_closed id ⟨⟨3, false, []⟩, 0, ⟨false⟩, ⟨false⟩⟩ ⟨some (ErrVal.other 2)⟩
      (Oracle.detachFails (ErrVal.other 1)) (ErrVal.other 1) (by decide) (by decide)).2
        (by decide) (by decide)).1⟩

/-! ## Frame facts: what a statement never undoes -/

/-- What no statement of any thread undoes: a closed trigger stays closed, an
operator in use stays in use, and the calls made on the operator stay
recorded. -/
theorem thread_step_frame (mapErr : Error → Error) (pd pd' : pollDesc) (o : Oracle)
    (t t' : Thread) (h : t.step mapErr pd o = some (Except.ok (pd', t'))) :
    (pd.closeTrigger.isClosed = true → pd'.closeTrigger.isClosed = true) ∧
    (pd.writeTrigger.isClosed = true → pd'.writeTrigger.isClosed = true) ∧
    (∀ c ∈ pd.operator.calls, c ∈ pd'.operator.calls) := by
  cases t with
  | onwrite pc =>
    cases pc with
    | select =>
      simp only [Thread.step] at h
      split at h <;> simp at h <;> obtain ⟨rfl, rfl⟩ := h <;> simp
    | close =>
      simp only [Thread.step, Chan.close] at h
      split at h <;> simp at h
      rename_i c hc
      split at hc <;> simp at hc
      obtain ⟨rfl, rfl⟩ := h
      simp [← hc]
    | ret e => simp [Thread.step] at h
  | onhup pc =>
    cases pc with
    | select =>
      simp only [Thread.step] at h
      split at h <;> simp at h <;> obtain ⟨rfl, rfl⟩ := h <;> simp
    | close =>
      simp only [Thread.step, Chan.close] at h
      split at h <;> simp at h
      rename_i c hc
      split at hc <;> simp at hc
      obtain ⟨rfl, rfl⟩ := h
      simp [← hc]
    | cas =>
      simp only [Thread.step, CompareAndSwapInt32] at h
      split at h <;> simp at h <;> obtain ⟨rfl, rfl⟩ := h <;> simp
    | free =>
      simp only [Thread.step, FDOperator.Free] at h
      simp at h
      obtain ⟨rfl, rfl⟩ := h
      simp
      intro c hc
      exact Or.inl hc
    | ret e => simp [Thread.step] at h
  | detach pc =>
    cases hs : pc.step pd o.detach with
    | none => simp [Thread.step, hs] at h
    | some r =>
      obtain ⟨pd1, pc1⟩ := r
      simp [Thread.step, hs] at h
      obtain ⟨rfl, rfl⟩ := h
      rcases detach_step_cases pd pd1 o.detach pc pc1 hs with
        ⟨rfl, hc, rfl, rfl⟩ | ⟨rfl, hc, rfl, rfl⟩ | ⟨rfl, hc, rfl, rfl⟩ | ⟨rfl, hc, rfl, rfl⟩ |
        ⟨rfl, rfl, rfl⟩ <;>
        simp [FDOperator.Control, FDOperator.Free] <;> intro c hc <;> exact Or.inl hc
  | WaitWrite ctx pc =>
    cases pc with
    | entry =>
      simp only [Thread.step] at h
      split at h <;> simp at h <;> obtain ⟨rfl, rfl⟩ := h <;> simp
    | arm =>
      simp only [Thread.step, FDOperator.Control] at h
      split at h <;> simp at h <;> obtain ⟨rfl, rfl⟩ := h <;> simp <;> intro c hc <;>
        exact Or.inl hc
    | select =>
      simp only [Thread.step] at h
      split at h <;> simp at h <;> obtain ⟨rfl, rfl⟩ := h <;> simp
    | detach pc =>
      cases hs : pc.step pd o.detach with
      | none =>
        simp [Thread.step, hs] at h
        obtain ⟨rfl, rfl⟩ := h
        simp
      | some r =>
        obtain ⟨pd1, pc1⟩ := r
        simp [Thread.step, hs] at h
        obtain ⟨rfl, rfl⟩ := h
        rcases detach_step_cases pd pd1 o.detach pc pc1 hs with
          ⟨rfl, hc, rfl, rfl⟩ | ⟨rfl, hc, rfl, rfl⟩ | ⟨rfl, hc, rfl, rfl⟩ |
          ⟨rfl, hc, rfl, rfl⟩ | ⟨rfl, rfl, rfl⟩ <;>
          simp [FDOperator.Control, FDOperator.Free] <;> intro c hc <;> exact Or.inl hc
    | recheck e =>
      simp [Thread.step] at h
      obtain ⟨rfl, rfl⟩ := h
      simp
    | ret e => simp [Thread.step] at h

/-- The same for a transition of the system, together with the flag `closed`,
which never goes back to 0. -/
theorem sys_step_frame (mapErr : Error → Error) (s s' : Sys) (a : Action)
    (h : s.step mapErr a = some s') :
    (s.pd.closeTrigger.isClosed = true → s'.pd.closeTrigger.isClosed = true) ∧
    (s.pd.writeTrigger.isClosed = true → s'.pd.writeTrigger.isClosed = true) ∧
    (∀ c ∈ s.pd.operator.calls, c ∈ s'.pd.operator.calls) ∧
    (s.pd.closed ≠ 0 → s'.pd.closed ≠ 0) := by
  rcases (sys_step_cases mapErr s s' a h).2 with
    ⟨tid, o, t, pd, t', rfl, ht, hs, rfl⟩ | ⟨tid, o, t, p, rfl, ht, hs, rfl⟩ |
    ⟨tid, err, ctx, pc, rfl, ht, hd, rfl⟩
  · obtain ⟨f1, f2, f3⟩ := thread_step_frame mapErr s.pd pd o t t' hs
    exact ⟨f1, f2, f3, (thread_step_release mapErr s.pd pd o t t' hs).2.2.2.2.1⟩
  · exact ⟨id, id, fun _ hc => hc, id⟩
  · exact ⟨id, id, fun _ hc => hc, id⟩

/-! ## One invocation among the others -/

theorem getElem?_set_of_some {α : Type} (l : List α) (i j : Nat) (t a : α)
    (h : l[i]? = some t) : (l.set i a)[j]? = if i = j then some a else l[j]? := by
  have hi : i < l.length := by
    obtain ⟨hi, _⟩ := List.getElem?_eq_some.mp h
    exact hi
  rw [List.getElem?_set]
  simp [hi]

/-- What a transition does to thread `i`: nothing (another thread moved, or a
statement panicked), or one of its statements, or the cancellation of its
context. -/
theorem sys_step_thread (mapErr : Error → Error) (s s' : Sys) (a : Action) (i : Nat)
    (t : Thread) (h : s.step mapErr a = some s') (ht : s.threads[i]? = some t) :
    s'.threads[i]? = some t ∨
    (∃ o t', a = Action.step i o ∧ t.step mapErr s.pd o = some (Except.ok (s'.pd, t')) ∧
      s'.threads[i]? = some t') ∨
    (∃ err ctx pc, a = Action.cancel i err ∧ t = Thread.WaitWrite ctx pc ∧ ctx.Err = none ∧
      s'.pd = s.pd ∧ s'.threads[i]? = some (Thread.WaitWrite ⟨some err⟩ pc)) := by
  rcases (sys_step_cases mapErr s s' a h).2 with
    ⟨tid, o, t0, pd, t', rfl, ht0, hs, rfl⟩ | ⟨tid, o, t0, p, rfl, ht0, hs, rfl⟩ |
    ⟨tid, err, ctx, pc, rfl, ht0, hd, rfl⟩
  · by_cases hi : tid = i
    · subst hi
      rw [ht] at ht0
      cases ht0
      refine Or.inr (Or.inl ⟨o, t', rfl, hs, ?_⟩)
      simp [getElem?_set_of_some _ _ _ _ _ ht]
    · refine Or.inl ?_
      simp [getElem?_set_of_some _ _ _ _ _ ht0, hi, ht]
  · exact Or.inl ht
  · by_cases hi : tid = i
    · subst hi
      rw [ht] at ht0
      cases ht0
      refine Or.inr (Or.inr ⟨err, ctx, pc, rfl, rfl, hd, rfl, ?_⟩)
      simp [getElem?_set_of_some _ _ _ _ _ ht]
    · refine Or.inl ?_
      simp [getElem?_set_of_some _ _ _ _ _ ht0, hi, ht]

/-- The statements of `WaitWrite`, case by case. -/
theorem waitWrite_step_cases (mapErr : Error → Error) (pd pd' : pollDesc) (o : Oracle)
    (ctx : Context) (pc : WaitPc) (t' : Thread)
    (h : (Thread.WaitWrite ctx pc).step mapErr pd o = some (Except.ok (pd', t'))) :
    ∃ pc', t' = Thread.WaitWrite ctx pc' ∧
      ((pc = WaitPc.entry ∧ pd' = pd ∧ pd.operator.isUnused = true ∧ pc' = WaitPc.arm) ∨
       (pc = WaitPc.entry ∧ pd' = pd ∧ pd.operator.isUnused = false ∧ pc' = WaitPc.select) ∨
       (pc = WaitPc.arm ∧ pd' = pd.afterControl PollEvent.PollWritable o.arm ∧
          ∃ e, o.arm = some e ∧ pc' = WaitPc.ret (some e)) ∨
       (pc = WaitPc.arm ∧ pd' = pd.afterControl PollEvent.PollWritable o.arm ∧
          o.arm = none ∧ pc' = WaitPc.select) ∨
       (pc = WaitPc.select ∧ pd' = pd ∧
          select3 pd.closeTrigger.recvReady pd.writeTrigger.recvReady ctx.doneReady o.branch
            = some Branch.closeTrigger ∧ pc' = WaitPc.ret peerClosed) ∨
       (pc = WaitPc.select ∧ pd' = pd ∧
          select3 pd.closeTrigger.recvReady pd.writeTrigger.recvReady ctx.doneReady o.branch
            = some Branch.writeTrigger ∧ pc' = WaitPc.recheck none) ∨
       (pc = WaitPc.select ∧ pd' = pd ∧
          select3 pd.closeTrigger.recvReady pd.writeTrigger.recvReady ctx.doneReady o.branch
            = some Branch.ctxDone ∧ pc' = WaitPc.detach DetachPc.cas) ∨
       (∃ dpc dpc', pc = WaitPc.detach dpc ∧ dpc.step pd o.detach = some (pd', dpc') ∧
          pc' = WaitPc.detach dpc') ∨
       (pc = WaitPc.detach DetachPc.ret ∧ pd' = pd ∧ pc' = WaitPc.recheck (mapErr ctx.Err)) ∨
       (∃ e, pc = WaitPc.recheck e ∧ pd' = pd ∧ pc' = WaitPc.ret (pd.recheck e))) := by
  cases pc with
  | entry =>
    simp only [Thread.step] at h
    split at h <;> simp at h <;> obtain ⟨rfl, rfl⟩ := h <;> simp_all
  | arm =>
    simp only [Thread.step, FDOperator.Control] at h
    cases ha : o.arm with
    | none =>
      simp [ha] at h
      obtain ⟨rfl, rfl⟩ := h
      simp [pollDesc.afterControl, FDOperator.Control, ha]
    | some e =>
      simp [ha] at h
      obtain ⟨rfl, rfl⟩ := h
      simp [pollDesc.afterControl, FDOperator.Control, ha]
  | select =>
    simp only [Thread.step] at h
    split at h <;> simp at h <;> obtain ⟨rfl, rfl⟩ := h <;> simp_all
  | detach dpc =>
    cases hs : dpc.step pd o.detach with
    | none =>
      simp [Thread.step, hs] at h
      obtain ⟨rfl, rfl⟩ := h
      cases dpc <;> simp [DetachPc.step] at hs
      · split at hs <;> simp at hs
      · split at hs <;> simp at hs
      · simp
    | some r =>
      obtain ⟨pd1, pc1⟩ := r
      simp [Thread.step, hs] at h
      obtain ⟨rfl, rfl⟩ := h
      simp [hs]
  | recheck e =>
    simp [Thread.step] at h
    obtain ⟨rfl, rfl⟩ := h
    simp
  | ret e => simp [Thread.step] at h

/-! ## Calls past their arming -/

/-- A `select` only takes a case that can proceed, and blocks only when none
can. -/
theorem select3_sound (cr wr xr : Bool) (pick : Branch) :
    (∀ b, select3 cr wr xr pick = some b →
      (b = Branch.closeTrigger → cr = true) ∧ (b = Branch.writeTrigger → wr = true) ∧
      (b = Branch.ctxDone → xr = true)) ∧
    (select3 cr wr xr pick = none → cr = false ∧ wr = false ∧ xr = false) ∧
    (cr = true → select3 cr wr xr Branch.closeTrigger = some Branch.closeTrigger) ∧
    (wr = true → select3 cr wr xr Branch.writeTrigger = some Branch.writeTrigger) ∧
    (xr = true → select3 cr wr xr Branch.ctxDone = some Branch.ctxDone) := by
  cases cr <;> cases wr <;> cases xr <;> cases pick <;> simp [select3]

/-- What a call of `WaitWrite` returns when its arming is not needed or
succeeds, by the case its wait resolves through. -/
theorem waitWrite_armed (mapErr : Error → Error) (pd : pollDesc) (ctx : Context) (o : Oracle)
    (harm : pd.operator.isUnused = true → o.arm = none) :
    pd.WaitWrite mapErr ctx o =
      match select3 pd.closeTrigger.recvReady pd.writeTrigger.recvReady ctx.doneReady
          o.branch with
      | none => (pd.armed, WaitResult.blocked)
      | some Branch.closeTrigger => (pd.armed, WaitResult.returned peerClosed)
      | some Branch.writeTrigger => (pd.armed, WaitResult.returned (pd.recheck none))
      | some Branch.ctxDone =>
        (pd.armed.detach o.detach,
          WaitResult.returned ((pd.armed.detach o.detach).recheck (mapErr ctx.Err))) := by
  by_cases hu : pd.operator.isUnused = true
  · simp only [pollDesc.WaitWrite, pollDesc.armed, hu, harm hu, FDOperator.Control,
      pollDesc.afterControl]
    simp only [if_true, Option.isSome_none, Bool.false_eq_true, if_false]
    split <;> rfl
  · simp only [pollDesc.WaitWrite, pollDesc.armed, hu]
    simp only [Bool.false_eq_true, if_false, Option.isSome_none]

/-- A call of `detach` does not touch the triggers. -/
theorem detach_triggers (pd : pollDesc) (ctl : Error) :
    (pd.detach ctl).closeTrigger = pd.closeTrigger ∧
    (pd.detach ctl).writeTrigger = pd.writeTrigger := by
  by_cases hc : pd.closed = 0
  · cases ctl <;>
      simp [pollDesc.detach, CompareAndSwapInt32, hc, FDOperator.Control, FDOperator.Free]
  · simp [pollDesc.detach, CompareAndSwapInt32, hc]

/-- Arming does not touch the triggers nor the flag `closed`. -/
theorem armed_frame (pd : pollDesc) :
    pd.armed.closeTrigger = pd.closeTrigger ∧ pd.armed.writeTrigger = pd.writeTrigger ∧
    pd.armed.closed = pd.closed ∧
    pd.armed.controls PollEvent.PollDetach = pd.controls PollEvent.PollDetach := by
  by_cases hu : pd.operator.isUnused = true
  · simp [pollDesc.armed, hu, pollDesc.afterControl, FDOperator.Control, pollDesc.controls,
      OpCall.isControl]
  · simp [pollDesc.armed, hu]

/-! ## Peer-close priority -/

/-- Once `closeTrigger` is closed, what `WaitPc.afterHup` says of invocation `i`
stays true along every execution. -/
theorem run_afterHup (mapErr : Error → Error) (early : Prop) (i : Nat) (s s' : Sys)
    (acts : List Action) (hrun : s.run mapErr acts = some s')
    (h0 : s.pd.closeTrigger.isClosed = true ∧ ∃ c pc,
      s.threads[i]? = some (Thread.WaitWrite c pc) ∧ pc.afterHup early s.pd.operator.calls) :
    s'.pd.closeTrigger.isClosed = true ∧ ∃ c pc,
      s'.threads[i]? = some (Thread.WaitWrite c pc) ∧ pc.afterHup early s'.pd.operator.calls := by
  refine run_induction mapErr
    (fun x => x.pd.closeTrigger.isClosed = true ∧ ∃ c pc,
      x.threads[i]? = some (Thread.WaitWrite c pc) ∧ pc.afterHup early x.pd.operator.calls)
    ?_ s s' acts h0 hrun
  rintro x x' a ⟨hct, c, pc, ht, hpc⟩ hstep
  obtain ⟨f1, _, f3, _⟩ := sys_step_frame mapErr x x' a hstep
  have hmono : ∀ p : WaitPc, p.afterHup early x.pd.operator.calls →
      p.afterHup early x'.pd.operator.calls := by
    intro p hp
    cases p with
    | ret r =>
      rcases hp with hp | ⟨he, e, hr, hm⟩
      · exact Or.inl hp
      · exact Or.inr ⟨he, e, hr, f3 _ hm⟩
    | entry => exact hp
    | arm => exact hp
    | select => exact hp
    | detach d => exact hp
    | recheck e => exact hp
  refine ⟨f1 hct, ?_⟩
  rcases sys_step_thread mapErr x x' a i _ hstep ht with
    h | ⟨o, t', rfl, hs, ht'⟩ | ⟨err, ctx, pc0, rfl, heq, _, hpd, ht'⟩
  · exact ⟨c, pc, h, hmono pc hpc⟩
  · obtain ⟨pc', rfl, hcases⟩ := waitWrite_step_cases mapErr _ _ _ _ _ _ hs
    refine ⟨c, pc', ht', ?_⟩
    rcases hcases with
      ⟨rfl, _, _, rfl⟩ | ⟨rfl, _, _, rfl⟩ | ⟨rfl, hpd, e, he, rfl⟩ | ⟨rfl, _, _, rfl⟩ |
      ⟨rfl, _, _, rfl⟩ | ⟨rfl, _, _, rfl⟩ | ⟨rfl, _, _, rfl⟩ | ⟨d, d', rfl, _, rfl⟩ |
      ⟨rfl, _, rfl⟩ | ⟨e, rfl, hpd, rfl⟩
    · exact hpc
    · trivial
    · refine Or.inr ⟨hpc, e, rfl, ?_⟩
      rw [hpd, he]
      simp [pollDesc.afterControl, FDOperator.Control]
    · trivial
    · exact Or.inl rfl
    · trivial
    · trivial
    · trivial
    · trivial
    · refine Or.inl ?_
      simp [pollDesc.recheck, Chan.recvReady, hct]
  · cases heq
    exact ⟨_, pc, ht', hmono pc hpc⟩

/-- Past its arming and with `closeTrigger` closed, the thread of `WaitWrite`
run on its own is never suspended and returns the peer-closed error within
seven statements, whatever the oracle decides. -/
theorem solo_peerClosed (mapErr : Error → Error) (o : Oracle) (pd : pollDesc) (ctx : Context)
    (pc : WaitPc) (hct : pd.closeTrigger.isClosed = true)
    (hpc : pc = WaitPc.select ∨ (∃ d, pc = WaitPc.detach d) ∨ ∃ e, pc = WaitPc.recheck e) :
    (Thread.solo mapErr o 7 pd (Thread.WaitWrite ctx pc)).map (fun r => r.2)
      = Except.ok (Thread.WaitWrite ctx (WaitPc.ret peerClosed)) := by
  have hrec : ∀ (x : pollDesc) (e : Error) (n : Nat), x.closeTrigger.isClosed = true →
      (Thread.solo mapErr o (n + 2) x (Thread.WaitWrite ctx (WaitPc.recheck e))).map
          (fun r => r.2)
        = Except.ok (Thread.WaitWrite ctx (WaitPc.ret peerClosed)) := by
    intro x e n hx
    simp [Thread.solo, Thread.step, pollDesc.recheck, Chan.recvReady, hx, Except.map]
  have hdet : ∀ (x : pollDesc) (d : DetachPc), x.closeTrigger.isClosed = true →
      (Thread.solo mapErr o 6 x (Thread.WaitWrite ctx (WaitPc.detach d))).map (fun r => r.2)
        = Except.ok (Thread.WaitWrite ctx (WaitPc.ret peerClosed)) := by
    intro x d hx
    cases d with
    | cas =>
      by_cases hc : x.closed = 0
      · cases hd : o.detach <;>
          simp [Thread.solo, Thread.step, DetachPc.step, CompareAndSwapInt32, hc, hd,
            FDOperator.Control, FDOperator.Free, pollDesc.recheck, Chan.recvReady, hx,
            Except.map]
      · simp [Thread.solo, Thread.step, DetachPc.step, CompareAndSwapInt32, hc,
          pollDesc.recheck, Chan.recvReady, hx, Except.map]
    | control =>
      cases hd : o.detach <;>
        simp [Thread.solo, Thread.step, DetachPc.step, hd, FDOperator.Control,
          FDOperator.Free, pollDesc.recheck, Chan.recvReady, hx, Except.map]
    | free =>
      simp [Thread.solo, Thread.step, DetachPc.step, FDOperator.Free, pollDesc.recheck,
        Chan.recvReady, hx, Except.map]
    | ret =>
      simp [Thread.solo, Thread.step, DetachPc.step, pollDesc.recheck, Chan.recvReady, hx,
        Except.map]
  rcases hpc with rfl | ⟨d, rfl⟩ | ⟨e, rfl⟩
  · cases hs : select3 pd.closeTrigger.recvReady pd.writeTrigger.recvReady ctx.doneReady
        o.branch with
    | none =>
      have := (select3_sound _ _ _ _).2.1 hs
      simp [Chan.recvReady, hct] at this
    | some b =>
      cases b with
      | closeTrigger => simp [Thread.solo, Thread.step, hs, Except.map]
      | writeTrigger =>
        have := hrec pd none 4 hct
        rw [Thread.solo]
        simpa [Thread.step, hs] using this
      | ctxDone =>
        have := hdet pd DetachPc.cas hct
        rw [Thread.solo]
        simpa [Thread.step, hs] using this
  · have := hdet pd d hct
    cases d with
    | cas =>
      by_cases hc : pd.closed = 0
      · cases hd : o.detach <;>
          simp [Thread.solo, Thread.step, DetachPc.step, CompareAndSwapInt32, hc, hd,
            FDOperator.Control, FDOperator.Free, pollDesc.recheck, Chan.recvReady, hct,
            Except.map]
      · simp [Thread.solo, Thread.step, DetachPc.step, CompareAndSwapInt32, hc,
          pollDesc.recheck, Chan.recvReady, hct, Except.map]
    | control =>
      cases hd : o.detach <;>
        simp [Thread.solo, Thread.step, DetachPc.step, hd, FDOperator.Control,
          FDOperator.Free, pollDesc.recheck, Chan.recvReady, hct, Except.map]
    | free =>
      simp [Thread.solo, Thread.step, DetachPc.step, FDOperator.Free, pollDesc.recheck,
        Chan.recvReady, hct, Except.map]
    | ret =>
      simp [Thread.solo, Thread.step, DetachPc.step, pollDesc.recheck, Chan.recvReady, hct,
        Except.map]
  · exact hrec pd e 5 hct

/-- C3, as amended (peer-close priority). First, statement by statement: take
any state in which `closeTrigger` is closed and a `WaitWrite` invocation has not
returned, and any execution from there, the other invocations and the
cancellation of contexts interleaved at will, in which that invocation returns.
If the invocation was past its arming (in the wait, in `detach`, or at the
re-check) it returns the peer-closed error `Exception(ErrConnClosed, "by peer")`.
If it was still at its entry or at its arming call, it returns the peer-closed
error or else the error of a failed `Control(PollWritable)` call. Second, the
invocation does return: past its arming and with `closeTrigger` closed, the
thread of `WaitWrite` run on its own is never suspended and reaches its return,
with the peer-closed error, within seven statements, whatever `select` picks and
whatever `Control(PollDetach)` answers. Third, for a call run without
interference on a descriptor whose `closeTrigger` is closed: if the arming is
not needed or succeeds the call returns the peer-closed error - whatever
`writeTrigger`, the context, `closed`, the `select` and `Control(PollDetach)`
are - and if the arming fails with `e` the call returns `e`. -/
theorem peer_close_priority (mapErr : Error → Error) :
    (∀ (s s' : Sys) (acts : List Action) (i : Nat) (ctx ctx' : Context) (pc : WaitPc)
        (r : Error),
      s.pd.closeTrigger.isClosed = true →
      s.threads[i]? = some (Thread.WaitWrite ctx pc) →
      (∀ r0, pc ≠ WaitPc.ret r0) →
      s.run mapErr acts = some s' →
      s'.threads[i]? = some (Thread.WaitWrite ctx' (WaitPc.ret r)) →
      r = peerClosed ∨
        ((pc = WaitPc.entry ∨ pc = WaitPc.arm) ∧ ∃ e, r = some e ∧
          OpCall.Control PollEvent.PollWritable (some e) ∈ s'.pd.operator.calls)) ∧
    (∀ (pd : pollDesc) (ctx : Context) (pc : WaitPc) (o : Oracle),
      pd.closeTrigger.isClosed = true →
      (pc = WaitPc.select ∨ (∃ d, pc = WaitPc.detach d) ∨ ∃ e, pc = WaitPc.recheck e) →
      (Thread.solo mapErr o 7 pd (Thread.WaitWrite ctx pc)).map (fun r => r.2)
        = Except.ok (Thread.WaitWrite ctx (WaitPc.ret peerClosed))) ∧
    (∀ (pd : pollDesc) (ctx : Context) (o : Oracle),
      pd.closeTrigger.isClosed = true →
      ((pd.operator.isUnused = true → o.arm = none) →
        (pd.WaitWrite mapErr ctx o).2 = WaitResult.returned peerClosed) ∧
      (∀ e, pd.operator.isUnused = true → o.arm = some e →
        (pd.WaitWrite mapErr ctx o).2 = WaitResult.returned (some e))) := by
  refine ⟨?_, ?_, ?_⟩
  · intro s s' acts i ctx ctx' pc r hct ht hpc hrun ht'
    have h0 : pc.afterHup (pc = WaitPc.entry ∨ pc = WaitPc.arm) s.pd.operator.calls := by
      cases pc with
      | entry => exact Or.inl rfl
      | arm => exact Or.inr rfl
      | ret r0 => exact absurd rfl (hpc r0)
      | select => trivial
      | detach d => trivial
      | recheck e => trivial
    obtain ⟨_, c, p, hc, hp⟩ := run_afterHup mapErr _ i s s' acts hrun ⟨hct, ctx, pc, ht, h0⟩
    rw [ht'] at hc
    cases hc
    exact hp
  · intro pd ctx pc o hct hpc
    exact solo_peerClosed mapErr o pd ctx pc hct hpc
  · intro pd ctx o hct
    refine ⟨?_, ?_⟩
    · intro harm
      rw [waitWrite_armed mapErr pd ctx o harm]
      have hrc : ∀ e, pd.recheck e = peerClosed := by
        intro e
        simp [pollDesc.recheck, Chan.recvReady, hct]
      have hrd : ∀ e, (pd.armed.detach o.detach).recheck e = peerClosed := by
        intro e
        simp [pollDesc.recheck, Chan.recvReady, (detach_triggers _ _).1, (armed_frame pd).1,
          hct]
      cases hs : select3 pd.closeTrigger.recvReady pd.writeTrigger.recvReady ctx.doneReady
          o.branch with
      | none =>
        have := (select3_sound _ _ _ _).2.1 hs
        simp [Chan.recvReady, hct] at this
      | some b => cases b <;> simp [hrc, hrd]
    · intro e hu ha
      simp [pollDesc.WaitWrite, hu, ha, FDOperator.Control]

/-- C3 as stated fails, on a descriptor that is not released. `WaitWrite` is
called on a new descriptor (`closed = 0`, no `Free()` call) and finds the
operator unused; `onhup` is invoked and closes `closeTrigger`; then
`Control(PollWritable)` fails with error 7 and `WaitWrite` returns that error,
not the peer-closed error, although `closeTrigger` was closed before it
returned. When `WaitWrite` returns, `closed` is still 0 and `Free()` has not
been called. -/
theorem peer_close_priority_counterexample :
    (newPollDesc FDOperator.fresh 3).closed = 0 ∧
    (newPollDesc FDOperator.fresh 3).frees = 0 ∧
    (newPollDesc FDOperator.fresh 3).operator.isUnused = true ∧
    (Sys.init (newPollDesc FDOperator.fresh 3) [Call.WaitWrite ⟨none⟩, Call.onhup]).run id
        (armFailsRaceSchedule.take 3) = some armFailsRaceClosed ∧
    armFailsRaceClosed.pd.closeTrigger.isClosed = true ∧
    armFailsRaceClosed.threads[0]? = some (Thread.WaitWrite ⟨none⟩ WaitPc.arm) ∧
    (Sys.init (newPollDesc FDOperator.fresh 3) [Call.WaitWrite ⟨none⟩, Call.onhup]).run id
        armFailsRaceSchedule = some armFailsRaceFinal ∧
    armFailsRaceFinal.threads[0]?
      = some (Thread.WaitWrite ⟨none⟩ (WaitPc.ret (some (ErrVal.other 7)))) ∧
    some (ErrVal.other 7) ≠ peerClosed ∧
    armFailsRaceFinal.pd.closed = 0 ∧
    armFailsRaceFinal.pd.frees = 0 :=
  ⟨by decide, by decide, by decide, by decide, by decide, by decide, by decide, by decide,
    by decide, by decide, by decide⟩

/-- A witness of C3 as amended (scenario D): `WaitWrite` is suspended in its
wait, `onhup` closes `closeTrigger`, then the context is cancelled and the wait
resolves through `ctx.Done()`; `WaitWrite` returns the peer-closed error. -/
theorem peer_close_priority_witness :
    waitingHupClosed.pd.closeTrigger.isClosed = true ∧
    waitingHupClosed.threads[0]? = some (Thread.WaitWrite ⟨none⟩ WaitPc.select) ∧
    waitingHupClosed.run id waitingHupSchedule = some waitingHupFinal ∧
    waitingHupFinal.threads[0]?
      = some (Thread.WaitWrite ⟨some (ErrVal.other 2)⟩ (WaitPc.ret peerClosed)) ∧
    (peerClosed = peerClosed ∨
      ((WaitPc.select = WaitPc.entry ∨ WaitPc.select = WaitPc.arm) ∧ ∃ e, peerClosed = some e ∧
        OpCall.Control PollEvent.PollWritable (some e) ∈ waitingHupFinal.pd.operator.calls)) ∧
    (Thread.solo id (Oracle.ok Branch.ctxDone) 7 waitingHupClosed.pd
        (Thread.WaitWrite ⟨some (ErrVal.other 2)⟩ WaitPc.select)).map (fun r => r.2)
      = Except.ok (Thread.WaitWrite ⟨some (ErrVal.other 2)⟩ (WaitPc.ret peerClosed)) :=
  ⟨by decide, by decide, by decide, by decide,
    (peer_close_priority id).1 waitingHupClosed waitingHupFinal waitingHupSchedule 0 ⟨none⟩
      ⟨some (ErrVal.other 2)⟩ WaitPc.select peerClosed (by decide) (by decide)
      (by intro r0 h; cases h) (by decide) (by decide),
    (peer_close_priority id).2.1 waitingHupClosed.pd ⟨some (ErrVal.other 2)⟩ WaitPc.select
      (Oracle.ok Branch.ctxDone) (by decide) (Or.inl rfl)⟩

/-! ## Arming -/

/-- What one statement of a thread does to the arming: the arming call of a
`WaitWrite` adds one `Control(PollWritable)` and marks the operator in use; any
other statement leaves both as they were, and leads to an arming call only from
the entry of a `WaitWrite` that found the operator unused. -/
theorem thread_step_arms (mapErr : Error → Error) (pd pd' : pollDesc) (o : Oracle)
    (t t' : Thread) (h : t.step mapErr pd o = some (Except.ok (pd', t'))) :
    (t.atArm = true ∧ t'.atArm = false ∧
      pd'.controls PollEvent.PollWritable = pd.controls PollEvent.PollWritable + 1 ∧
      pd'.operator.unused = false) ∨
    (t.atArm = false ∧
      pd'.controls PollEvent.PollWritable = pd.controls PollEvent.PollWritable ∧
      pd'.operator.unused = pd.operator.unused ∧
      (t'.atArm = true → pd.operator.unused = true)) := by
  cases t with
  | onwrite pc =>
    cases pc with
    | select =>
      simp only [Thread.step] at h
      split at h <;> simp at h <;> obtain ⟨rfl, rfl⟩ := h <;> simp [Thread.atArm]
    | close =>
      simp only [Thread.step, Chan.close] at h
      split at h <;> simp at h
      obtain ⟨rfl, rfl⟩ := h
      simp [Thread.atArm, pollDesc.controls]
    | ret e => simp [Thread.step] at h
  | onhup pc =>
    cases pc with
    | select =>
      simp only [Thread.step] at h
      split at h <;> simp at h <;> obtain ⟨rfl, rfl⟩ := h <;> simp [Thread.atArm]
    | close =>
      simp only [Thread.step, Chan.close] at h
      split at h <;> simp at h
      obtain ⟨rfl, rfl⟩ := h
      simp [Thread.atArm, pollDesc.controls]
    | cas =>
      simp only [Thread.step, CompareAndSwapInt32] at h
      split at h <;> simp at h <;> obtain ⟨rfl, rfl⟩ := h <;>
        simp [Thread.atArm, pollDesc.controls]
    | free =>
      simp only [Thread.step, FDOperator.Free] at h
      simp at h
      obtain ⟨rfl, rfl⟩ := h
      simp [Thread.atArm, pollDesc.controls, OpCall.isControl]
    | ret e => simp [Thread.step] at h
  | detach pc =>
    cases hs : pc.step pd o.detach with
    | none => simp [Thread.step, hs] at h
    | some r =>
      obtain ⟨pd1, pc1⟩ := r
      simp [Thread.step, hs] at h
      obtain ⟨rfl, rfl⟩ := h
      rcases detach_step_cases pd pd1 o.detach pc pc1 hs with
        ⟨rfl, hc, rfl, rfl⟩ | ⟨rfl, hc, rfl, rfl⟩ | ⟨rfl, hc, rfl, rfl⟩ | ⟨rfl, hc, rfl, rfl⟩ |
        ⟨rfl, rfl, rfl⟩ <;>
        simp [Thread.atArm, pollDesc.controls, FDOperator.Control, FDOperator.Free,
          OpCall.isControl]
  | WaitWrite ctx pc =>
    obtain ⟨pc', rfl, hcases⟩ := waitWrite_step_cases mapErr _ _ _ _ _ _ h
    rcases hcases with
      ⟨rfl, rfl, hu, rfl⟩ | ⟨rfl, rfl, hu, rfl⟩ | ⟨rfl, rfl, e, he, rfl⟩ | ⟨rfl, rfl, he, rfl⟩ |
      ⟨rfl, rfl, _, rfl⟩ | ⟨rfl, rfl, _, rfl⟩ | ⟨rfl, rfl, _, rfl⟩ | ⟨d, d', rfl, hd, rfl⟩ |
      ⟨rfl, rfl, rfl⟩ | ⟨e, rfl, rfl, rfl⟩
    · simp [Thread.atArm]
      exact hu
    · simp [Thread.atArm]
    · simp [Thread.atArm, pollDesc.controls, pollDesc.afterControl, FDOperator.Control,
        OpCall.isControl]
    · simp [Thread.atArm, pollDesc.controls, pollDesc.afterControl, FDOperator.Control,
        OpCall.isControl]
    · simp [Thread.atArm]
    · simp [Thread.atArm]
    · simp [Thread.atArm]
    · rcases detach_step_cases pd pd' o.detach d d' hd with
        ⟨rfl, hc, rfl, rfl⟩ | ⟨rfl, hc, rfl, rfl⟩ | ⟨rfl, hc, rfl, rfl⟩ | ⟨rfl, hc, rfl, rfl⟩ |
        ⟨rfl, rfl, rfl⟩ <;>
        simp [Thread.atArm, pollDesc.controls, FDOperator.Control, FDOperator.Free,
          OpCall.isControl]
    · simp [Thread.atArm]
    · simp [Thread.atArm]

/-- Every transition out of a state with at most one `WaitWrite` in progress
keeps the arming invariant. -/
theorem step_armInv (mapErr : Error → Error) (a0 : Nat) (s s' : Sys) (a : Action)
    (hinv : s.armInv a0) (hw : s.waiters ≤ 1) (h : s.step mapErr a = some s') :
    s'.armInv a0 := by
  obtain ⟨h1, h2⟩ := hinv
  have hle : s.threads.countP Thread.atArm ≤ s.threads.countP Thread.inWait := by
    apply List.countP_mono_left
    intro t _ ht
    cases t with
    | WaitWrite ctx pc => cases pc <;> simp [Thread.atArm] at ht; rfl
    | onwrite pc => simp [Thread.atArm] at ht
    | onhup pc => simp [Thread.atArm] at ht
    | detach pc => simp [Thread.atArm] at ht
  simp only [Sys.waiters] at hw
  rcases (sys_step_cases mapErr s s' a h).2 with
    ⟨tid, o, t, pd, t', rfl, ht, hs, rfl⟩ | ⟨tid, o, t, p, rfl, ht, hs, rfl⟩ |
    ⟨tid, err, ctx, pc, rfl, ht, hd, rfl⟩
  · have hcnt := countP_set_add Thread.atArm s.threads tid t t' ht
    simp only [Sys.armInv]
    rcases thread_step_arms mapErr s.pd pd o t t' hs with
      ⟨ha, ha', hc, hu⟩ | ⟨ha, hc, hu, himp⟩
    · simp only [ha, ha'] at hcnt
      simp at hcnt
      have hpos : 0 < s.threads.countP Thread.atArm :=
        List.countP_pos_iff.mpr ⟨t, List.getElem?_mem ht, ha⟩
      refine ⟨fun hu' => ?_, fun _ => ⟨?_, by omega⟩⟩
      · rw [hu] at hu'
        cases hu'
      · cases hu0 : s.pd.operator.unused with
        | true =>
          have := h1 hu0
          omega
        | false =>
          have := (h2 hu0).2
          omega
    · simp only [ha] at hcnt
      simp at hcnt
      refine ⟨fun hu' => ?_, fun hu' => ?_⟩
      · rw [hc]
        exact h1 (hu ▸ hu')
      · rw [hu] at hu'
        obtain ⟨i1, i2⟩ := h2 hu'
        refine ⟨by omega, ?_⟩
        by_cases hta : t'.atArm = true
        · have := himp hta
          rw [hu'] at this
          cases this
        · simp [hta] at hcnt
          omega
  · exact ⟨h1, h2⟩
  · have hcnt := countP_set_add Thread.atArm s.threads tid (Thread.WaitWrite ctx pc)
      (Thread.WaitWrite ⟨some err⟩ pc) ht
    have hsame : (Thread.WaitWrite ⟨some err⟩ pc).atArm = (Thread.WaitWrite ctx pc).atArm := by
      cases pc <;> rfl
    rw [hsame] at hcnt
    refine ⟨h1, fun hu => ⟨(h2 hu).1, ?_⟩⟩
    have := (h2 hu).2
    dsimp only
    omega

/-- Along an execution in which the `WaitWrite` invocations take place one
after the other, the arming invariant is kept. -/
theorem run_armInv (mapErr : Error → Error) (a0 : Nat) (s s' : Sys) (acts : List Action)
    (hinv : s.armInv a0) (hseq : s.waitsInTurn mapErr acts = true)
    (h : s.run mapErr acts = some s') : s'.armInv a0 := by
  induction acts generalizing s with
  | nil =>
    simp [Sys.run] at h
    exact h ▸ hinv
  | cons a as ih =>
    cases hs : s.step mapErr a with
    | none => simp [Sys.run, hs] at h
    | some s1 =>
      simp [Sys.run, hs] at h
      simp [Sys.waitsInTurn, hs] at hseq
      exact ih s1 (step_armInv mapErr a0 s s1 a hinv hseq.1 hs) hseq.2 h

/-- On an operator already in use, no transition adds a `Control(PollWritable)`
call, however the invocations overlap. -/
theorem run_armed (mapErr : Error → Error) (a0 : Nat) (s s' : Sys) (acts : List Action)
    (h0 : s.pd.operator.unused = false ∧ s.pd.controls PollEvent.PollWritable = a0 ∧
      s.threads.countP Thread.atArm = 0)
    (h : s.run mapErr acts = some s') :
    s'.pd.operator.unused = false ∧ s'.pd.controls PollEvent.PollWritable = a0 ∧
      s'.threads.countP Thread.atArm = 0 := by
  refine run_induction mapErr
    (fun x => x.pd.operator.unused = false ∧ x.pd.controls PollEvent.PollWritable = a0 ∧
      x.threads.countP Thread.atArm = 0) ?_ s s' acts h0 h
  rintro x x' a ⟨hu, hc, hz⟩ hstep
  rcases (sys_step_cases mapErr x x' a hstep).2 with
    ⟨tid, o, t, pd, t', rfl, ht, hs, rfl⟩ | ⟨tid, o, t, p, rfl, ht, hs, rfl⟩ |
    ⟨tid, err, ctx, pc, rfl, ht, hd, rfl⟩
  · have hcnt := countP_set_add Thread.atArm x.threads tid t t' ht
    rcases thread_step_arms mapErr x.pd pd o t t' hs with
      ⟨ha, _, _, _⟩ | ⟨ha, hc', hu', himp⟩
    · have hpos : 0 < x.threads.countP Thread.atArm :=
        List.countP_pos_iff.mpr ⟨t, List.getElem?_mem ht, ha⟩
      omega
    · simp only [ha] at hcnt
      simp at hcnt
      refine ⟨hu'.trans hu, hc'.trans hc, ?_⟩
      by_cases hta : t'.atArm = true
      · have := himp hta
        rw [hu] at this
        cases this
      · simp [hta] at hcnt
        dsimp only
        omega
  · exact ⟨hu, hc, hz⟩
  · have hcnt := countP_set_add Thread.atArm x.threads tid (Thread.WaitWrite ctx pc)
      (Thread.WaitWrite ⟨some err⟩ pc) ht
    have hsame : (Thread.WaitWrite ⟨some err⟩ pc).atArm = (Thread.WaitWrite ctx pc).atArm := by
      cases pc <;> rfl
    rw [hsame] at hcnt
    refine ⟨hu, hc, ?_⟩
    dsimp only
    omega

theorem init_countP_atArm (pd : pollDesc) (calls : List Call) :
    (Sys.init pd calls).threads.countP Thread.atArm = 0 := by
  simp only [Sys.init]
  rw [List.countP_eq_zero]
  intro t ht
  obtain ⟨c, _, rfl⟩ := List.mem_map.mp ht
  cases c <;> simp [Call.start, Thread.atArm]

/-- What a call of `detach` adds to the `Control(PollWritable)` calls:
nothing. -/
theorem detach_controls_writable (pd : pollDesc) (ctl : Error) :
    (pd.detach ctl).controls PollEvent.PollWritable = pd.controls PollEvent.PollWritable := by
  by_cases hc : pd.closed = 0
  · cases ctl <;>
      simp [pollDesc.detach, CompareAndSwapInt32, hc, FDOperator.Control, FDOperator.Free,
        pollDesc.controls, OpCall.isControl]
  · simp [pollDesc.detach, CompareAndSwapInt32, hc]

/-- C7 (no double arming). A call of `WaitWrite` makes one
`Control(PollWritable)` call if `operator.isUnused()` is true on entry and none
otherwise - whether it then returns or stays suspended. Hence, from any
descriptor and any invocations about to start: along every execution in which
the `WaitWrite` invocations take place one after the other (callbacks and
cancellations interleaved at will), at most one `Control(PollWritable)` call is
made; and if the operator was already in use at the start, none is made,
however the invocations overlap. -/
theorem no_double_arming (mapErr : Error → Error) (pd : pollDesc) :
    (∀ (ctx : Context) (o : Oracle),
      (pd.WaitWrite mapErr ctx o).1.controls PollEvent.PollWritable
        = pd.controls PollEvent.PollWritable + (if pd.operator.isUnused then 1 else 0)) ∧
    (∀ (calls : List Call) (acts : List Action) (s' : Sys),
      (Sys.init pd calls).run mapErr acts = some s' →
      (Sys.init pd calls).waitsInTurn mapErr acts = true →
      s'.pd.controls PollEvent.PollWritable ≤ pd.controls PollEvent.PollWritable + 1) ∧
    (∀ (calls : List Call) (acts : List Action) (s' : Sys),
      (Sys.init pd calls).run mapErr acts = some s' →
      pd.operator.isUnused = false →
      s'.pd.controls PollEvent.PollWritable = pd.controls PollEvent.PollWritable) := by
  refine ⟨?_, ?_, ?_⟩
  · intro ctx o
    by_cases hu : pd.operator.isUnused = true
    · cases ha : o.arm with
      | some e =>
        simp [pollDesc.WaitWrite, hu, ha, FDOperator.Control, pollDesc.controls,
          OpCall.isControl]
      | none =>
        simp only [pollDesc.WaitWrite, hu, ha, FDOperator.Control]
        simp only [if_true, Option.isSome_none, Bool.false_eq_true, if_false]
        split
        · simp [pollDesc.controls, OpCall.isControl]
        · simp [pollDesc.controls, OpCall.isControl]
        · simp [pollDesc.controls, OpCall.isControl]
        · simp only [detach_controls_writable]
          simp [pollDesc.controls, OpCall.isControl]
    · simp only [pollDesc.WaitWrite, hu]
      simp only [Bool.false_eq_true, if_false, Option.isSome_none]
      split
      · simp
      · simp
      · simp
      · simp only [detach_controls_writable]
        simp
  · intro calls acts s' h hseq
    have hinit : (Sys.init pd calls).armInv (pd.controls PollEvent.PollWritable) := by
      refine ⟨fun _ => rfl, fun _ => ⟨Nat.le_succ _, init_countP_atArm pd calls⟩⟩
    obtain ⟨i1, i2⟩ := run_armInv mapErr _ _ s' acts hinit hseq h
    cases hu : s'.pd.operator.unused with
    | true =>
      have := i1 hu
      omega
    | false => exact (i2 hu).1
  · intro calls acts s' h hu
    exact (run_armed mapErr _ _ s' acts ⟨hu, rfl, init_countP_atArm pd calls⟩ h).2.1

/-- A witness of C7: two `WaitWrite` calls in a row on a new descriptor, with an
`onwrite` in between; one `Control(PollWritable)` call in all. -/
theorem no_double_arming_witness :
    (Sys.init (newPollDesc FDOperator.fresh 3)
        [Call.WaitWrite ⟨none⟩, Call.onwrite, Call.WaitWrite ⟨none⟩]).run id twoWaitsSchedule
      = some twoWaitsFinal ∧
    (Sys.init (newPollDesc FDOperator.fresh 3)
        [Call.WaitWrite ⟨none⟩, Call.onwrite, Call.WaitWrite ⟨none⟩]).waitsInTurn id
          twoWaitsSchedule = true ∧
    twoWaitsFinal.pd.controls PollEvent.PollWritable = 1 ∧
    twoWaitsFinal.pd.controls PollEvent.PollWritable
      ≤ (newPollDesc FDOperator.fresh 3).controls PollEvent.PollWritable + 1 :=
  ⟨by decide, by decide, by decide,
    (no_double_arming id (newPollDesc FDOperator.fresh 3)).2.1
      [Call.WaitWrite ⟨none⟩, Call.onwrite, Call.WaitWrite ⟨none⟩] twoWaitsSchedule
      twoWaitsFinal (by decide) (by decide)⟩

/-! ## After the wait -/

/-- After the wait of invocation `i` has resolved through case `b`, what
`WaitPc.afterSelect` says of it stays true along every execution. -/
theorem run_afterSelect (mapErr : Error → Error) (b : Branch) (ctx : Context) (i : Nat)
    (s s' : Sys) (acts : List Action) (hdone : b = Branch.ctxDone → ctx.doneReady = true)
    (hrun : s.run mapErr acts = some s')
    (h0 : ∃ c pc, s.threads[i]? = some (Thread.WaitWrite c pc) ∧
      (b = Branch.ctxDone → c = ctx) ∧ pc.afterSelect mapErr ctx s.pd b) :
    ∃ c pc, s'.threads[i]? = some (Thread.WaitWrite c pc) ∧
      (b = Branch.ctxDone → c = ctx) ∧ pc.afterSelect mapErr ctx s'.pd b := by
  refine run_induction mapErr
    (fun x => ∃ c pc, x.threads[i]? = some (Thread.WaitWrite c pc) ∧
      (b = Branch.ctxDone → c = ctx) ∧ pc.afterSelect mapErr ctx x.pd b)
    ?_ s s' acts h0 hrun
  rintro x x' a ⟨c, pc, ht, hc, hpc⟩ hstep
  obtain ⟨f1, _, _, f4⟩ := sys_step_frame mapErr x x' a hstep
  have hmono : ∀ p : WaitPc, p.afterSelect mapErr ctx x.pd b →
      p.afterSelect mapErr ctx x'.pd b := by
    intro p hp
    cases b <;> cases p <;> simp only [WaitPc.afterSelect] at hp ⊢
    · exact ⟨hp.1, f1 hp.2⟩
    · exact hp
    · rcases hp with hp | ⟨hp, hq⟩
      · exact Or.inl hp
      · exact Or.inr ⟨hp, f1 hq⟩
    · rcases hp with hp | hp
      · exact Or.inl hp
      · exact Or.inr (f4 hp)
    · exact ⟨hp.1, f4 hp.2⟩
    · refine ⟨f4 hp.1, ?_⟩
      rcases hp.2 with hp | ⟨hp, hq⟩
      · exact Or.inl hp
      · exact Or.inr ⟨hp, f1 hq⟩
  rcases sys_step_thread mapErr x x' a i _ hstep ht with
    h | ⟨o, t', rfl, hs, ht'⟩ | ⟨err, ctx0, pc0, rfl, heq, hnone, hpd, ht'⟩
  · exact ⟨c, pc, h, hc, hmono pc hpc⟩
  · obtain ⟨pc', rfl, hcases⟩ := waitWrite_step_cases mapErr _ _ _ _ _ _ hs
    refine ⟨c, pc', ht', hc, ?_⟩
    rcases hcases with
      ⟨rfl, _, _, rfl⟩ | ⟨rfl, _, _, rfl⟩ | ⟨rfl, _, e, he, rfl⟩ | ⟨rfl, _, _, rfl⟩ |
      ⟨rfl, _, _, rfl⟩ | ⟨rfl, _, _, rfl⟩ | ⟨rfl, _, _, rfl⟩ | ⟨d, d', rfl, hd, rfl⟩ |
      ⟨rfl, hpd, rfl⟩ | ⟨e, rfl, hpd, rfl⟩
    · cases b <;> simp [WaitPc.afterSelect] at hpc
    · cases b <;> simp [WaitPc.afterSelect] at hpc
    · cases b <;> simp [WaitPc.afterSelect] at hpc
    · cases b <;> simp [WaitPc.afterSelect] at hpc
    · cases b <;> simp [WaitPc.afterSelect] at hpc
    · cases b <;> simp [WaitPc.afterSelect] at hpc
    · cases b <;> simp [WaitPc.afterSelect] at hpc
    · cases b <;> simp only [WaitPc.afterSelect] at hpc ⊢
      rcases detach_step_cases x.pd x'.pd o.detach d d' hd with
        ⟨rfl, hz, hpd, rfl⟩ | ⟨rfl, hz, hpd, rfl⟩ | ⟨rfl, hz, hpd, rfl⟩ |
        ⟨rfl, hz, hpd, rfl⟩ | ⟨rfl, hpd, rfl⟩
      · rw [hpd]
        exact Or.inr (by simp)
      · rw [hpd]
        exact Or.inr hz
      · rw [hpd]
        rcases hpc with hpc | hpc
        · cases hpc
        · exact Or.inr hpc
      · rw [hpd]
        rcases hpc with hpc | hpc
        · cases hpc
        · exact Or.inr hpc
      · rw [hpd]
        rcases hpc with hpc | hpc
        · cases hpc
        · exact Or.inr hpc
    · cases b <;> simp only [WaitPc.afterSelect] at hpc ⊢
      rw [hpd, hc rfl]
      rcases hpc with hpc | hpc
      · cases hpc
      · exact ⟨rfl, hpc⟩
    · rw [hpd]
      cases b <;> simp only [WaitPc.afterSelect] at hpc ⊢
      · subst hpc
        cases hcl : x.pd.closeTrigger.isClosed <;>
          simp [pollDesc.recheck, Chan.recvReady, hcl]
      · obtain ⟨rfl, hz⟩ := hpc
        refine ⟨hz, ?_⟩
        cases hcl : x.pd.closeTrigger.isClosed <;>
          simp [pollDesc.recheck, Chan.recvReady, hcl]
  · cases heq
    refine ⟨_, pc, ht', ?_, hmono pc hpc⟩
    intro hb
    have h1 := hdone hb
    rw [← hc hb] at h1
    simp [Context.doneReady, hnone] at h1

/-- The state right after the wait of invocation `i` has resolved through case
`b` satisfies `WaitPc.afterSelect`. -/
theorem select_afterSelect (mapErr : Error → Error) (s s1 : Sys) (i : Nat) (o : Oracle)
    (ctx : Context) (b : Branch)
    (ht : s.threads[i]? = some (Thread.WaitWrite ctx WaitPc.select))
    (hsel : select3 s.pd.closeTrigger.recvReady s.pd.writeTrigger.recvReady ctx.doneReady
      o.branch = some b)
    (hstep : s.step mapErr (Action.step i o) = some s1) :
    s1.pd = s.pd ∧
    ∃ pc, s1.threads[i]? = some (Thread.WaitWrite ctx pc) ∧
      pc.afterSelect mapErr ctx s1.pd b ∧
      (b = Branch.ctxDone → pc = WaitPc.detach DetachPc.cas) := by
  rcases sys_step_thread mapErr s s1 (Action.step i o) i _ hstep ht with
    h | ⟨o', t', ha, hs, ht'⟩ | ⟨err, ctx0, pc0, ha, _⟩
  · rcases (sys_step_cases mapErr s s1 _ hstep).2 with
      ⟨tid, o', t0, pd, t', ha, ht0, hs, rfl⟩ | ⟨tid, o', t0, p, ha, ht0, hs, rfl⟩ |
      ⟨tid, err, ctx0, pc0, ha, _⟩
    · cases ha
      rw [ht] at ht0
      cases ht0
      simp [getElem?_set_of_some _ _ _ _ _ ht] at h
      subst h
      simp [Thread.step, hsel] at hs
      cases b <;> simp at hs
    · cases ha
      rw [ht] at ht0
      cases ht0
      simp [Thread.step, hsel] at hs
      cases b <;> simp at hs
    · cases ha
  · cases ha
    have hsound := (select3_sound s.pd.closeTrigger.recvReady s.pd.writeTrigger.recvReady
      ctx.doneReady o.branch).1 b hsel
    simp only [Thread.step, hsel] at hs
    cases b <;> simp at hs <;> obtain ⟨hpd, rfl⟩ := hs <;> refine ⟨hpd.symm, _, ht', ?_, ?_⟩ <;>
      simp [WaitPc.afterSelect]
    rw [← hpd]
    exact hsound.1 rfl
  · cases ha

/-! ## The result of a wait -/

/-- C9 (result of a wait with no hangup). Statement by statement, with the
other invocations and cancellations interleaved at will: if the wait of a
`WaitWrite` invocation resolves through case `b` and, when the invocation has
returned, `closeTrigger` is not closed (so it was not closed at the re-check),
then the case was not `closeTrigger`, and the value returned is nil if the case
was `writeTrigger` and `mapErr(ctx.Err())` if it was `ctx.Done()`. For a call
run without interference whose arming is not needed or succeeds and whose
`closeTrigger` is not closed: the call returns that same value for the case its
wait resolves through, and stays suspended only if no case is ready; in
particular it returns nil when `writeTrigger` is closed and the context is not
done, and the mapped context error when the context is done and `writeTrigger`
is not closed. -/
theorem wait_result_no_hangup (mapErr : Error → Error) :
    (∀ (s s1 s' : Sys) (acts : List Action) (i : Nat) (o : Oracle) (ctx ctx' : Context)
        (b : Branch) (r : Error),
      s.threads[i]? = some (Thread.WaitWrite ctx WaitPc.select) →
      select3 s.pd.closeTrigger.recvReady s.pd.writeTrigger.recvReady ctx.doneReady o.branch
        = some b →
      s.step mapErr (Action.step i o) = some s1 →
      s1.run mapErr acts = some s' →
      s'.threads[i]? = some (Thread.WaitWrite ctx' (WaitPc.ret r)) →
      s'.pd.closeTrigger.isClosed = false →
      b ≠ Branch.closeTrigger ∧ r = b.result mapErr ctx) ∧
    ∀ (pd : pollDesc) (c : Context) (o' : Oracle),
      (pd.operator.isUnused = true → o'.arm = none) → pd.closeTrigger.isClosed = false →
      (∀ b', select3 pd.closeTrigger.recvReady pd.writeTrigger.recvReady c.doneReady o'.branch
          = some b' →
        (pd.WaitWrite mapErr c o').2 = WaitResult.returned (b'.result mapErr c)) ∧
      ((pd.WaitWrite mapErr c o').2 = WaitResult.blocked →
        pd.writeTrigger.isClosed = false ∧ c.Err = none) ∧
      (pd.writeTrigger.isClosed = true → c.Err = none →
        (pd.WaitWrite mapErr c o').2 = WaitResult.returned none) ∧
      (pd.writeTrigger.isClosed = false → c.Err ≠ none →
        (pd.WaitWrite mapErr c o').2 = WaitResult.returned (mapErr c.Err)) := by
  constructor
  · intro s s1 s' acts i o ctx ctx' b r ht hsel hstep hrun ht' hopen
    obtain ⟨_, pc, h1, h2, _⟩ := select_afterSelect mapErr s s1 i o ctx b ht hsel hstep
    have hdone : b = Branch.ctxDone → ctx.doneReady = true := fun hb =>
      ((select3_sound _ _ _ _).1 b hsel).2.2 hb
    obtain ⟨c, p, hc, _, hp⟩ :=
      run_afterSelect mapErr b ctx i s1 s' acts hdone hrun ⟨ctx, pc, h1, fun _ => rfl, h2⟩
    rw [ht'] at hc
    cases hc
    cases b <;> simp only [WaitPc.afterSelect, hopen] at hp
    · simp at hp
    · simpa [Branch.result] using hp
    · simpa [Branch.result] using hp.2
  · intro pd c o' harm hct
    have hw := waitWrite_armed mapErr pd c o' harm
    have hrc : ∀ e, pd.recheck e = e := by
      intro e
      simp [pollDesc.recheck, Chan.recvReady, hct]
    have hrd : ∀ e, (pd.armed.detach o'.detach).recheck e = e := by
      intro e
      simp [pollDesc.recheck, Chan.recvReady, (detach_triggers _ _).1, (armed_frame pd).1, hct]
    have hsnd := select3_sound pd.closeTrigger.recvReady pd.writeTrigger.recvReady c.doneReady
      o'.branch
    have hgen : ∀ b', select3 pd.closeTrigger.recvReady pd.writeTrigger.recvReady c.doneReady
        o'.branch = some b' →
        (pd.WaitWrite mapErr c o').2 = WaitResult.returned (b'.result mapErr c) := by
      intro b' hb'
      rw [hw, hb']
      cases b' <;> simp [Branch.result, hrc, hrd]
    refine ⟨hgen, ?_, ?_, ?_⟩
    · intro hbl
      cases hsel' : select3 pd.closeTrigger.recvReady pd.writeTrigger.recvReady c.doneReady
          o'.branch with
      | none =>
        have := hsnd.2.1 hsel'
        simp only [Chan.recvReady, Context.doneReady] at this
        refine ⟨this.2.1, ?_⟩
        cases hce : c.Err with
        | none => rfl
        | some e => simp [hce] at this
      | some b' =>
        rw [hgen b' hsel'] at hbl
        cases hbl
    · intro hwt hce
      cases hsel' : select3 pd.closeTrigger.recvReady pd.writeTrigger.recvReady c.doneReady
          o'.branch with
      | none =>
        have := hsnd.2.1 hsel'
        simp [Chan.recvReady, hwt] at this
      | some b' =>
        rw [hgen b' hsel']
        have := hsnd.1 b' hsel'
        cases b' with
        | closeTrigger => simp [Chan.recvReady, hct] at this
        | writeTrigger => rfl
        | ctxDone => simp [Context.doneReady, hce] at this
    · intro hwt hce
      cases hsel' : select3 pd.closeTrigger.recvReady pd.writeTrigger.recvReady c.doneReady
          o'.branch with
      | none =>
        have := hsnd.2.1 hsel'
        simp only [Context.doneReady] at this
        cases hce' : c.Err with
        | none => exact absurd hce' hce
        | some e => simp [hce'] at this
      | some b' =>
        rw [hgen b' hsel']
        have := hsnd.1 b' hsel'
        cases b' with
        | closeTrigger => simp [Chan.recvReady, hct] at this
        | writeTrigger => simp [Chan.recvReady, hwt] at this
        | ctxDone => rfl

/-- A witness of C9 (scenario A): `WaitWrite` is called on a new descriptor with
a context that is never done and suspends; `onwrite` is invoked; `WaitWrite`
returns nil. -/
theorem wait_result_no_hangup_witness :
    (Sys.init (newPollDesc FDOperator.fresh 3) [Call.WaitWrite ⟨none⟩, Call.onwrite]).run id
        writableSchedule = some writableWaiting ∧
    writableWaiting.step id (Action.step 0 (Oracle.ok Branch.writeTrigger))
      = some writableResolved ∧
    writableResolved.run id [Action.step 0 (Oracle.ok Branch.writeTrigger)]
      = some writableFinal ∧
    (Branch.writeTrigger ≠ Branch.closeTrigger ∧
      (none : Error) = Branch.writeTrigger.result id ⟨none⟩) :=
  ⟨by decide, by decide, by decide,
    (wait_result_no_hangup id).1 writableWaiting writableResolved writableFinal
      [Action.step 0 (Oracle.ok Branch.writeTrigger)] 0 (Oracle.ok Branch.writeTrigger) ⟨none⟩
      ⟨none⟩ Branch.writeTrigger none (by decide) (by decide) (by decide) (by decide)
      (by decide) (by decide)⟩

/-! ## Cancellation -/

/-- C10, as amended (a wait that resolves through `ctx.Done()` detaches).
Statement by statement, with the other invocations and cancellations
interleaved at will: if the wait of a `WaitWrite` invocation resolves through
the `ctx.Done()` case, its next statement is the compare-and-swap of `detach`,
and once the invocation has returned `closed` is not 0. For a call run without
interference whose arming is not needed or succeeds: if the wait resolves
through `ctx.Done()` the descriptor is left as `detach` leaves it; if the
context is done and neither trigger is closed, the wait does resolve through
`ctx.Done()`, whatever the `select` would pick, the call returns the mapped
context error, and, if `closed` was 0, it makes exactly one
`Control(PollDetach)` call. -/
theorem cancellation_detaches (mapErr : Error → Error) :
    (∀ (s s1 s' : Sys) (acts : List Action) (i : Nat) (o : Oracle) (ctx ctx' : Context)
        (r : Error),
      s.threads[i]? = some (Thread.WaitWrite ctx WaitPc.select) →
      select3 s.pd.closeTrigger.recvReady s.pd.writeTrigger.recvReady ctx.doneReady o.branch
        = some Branch.ctxDone →
      s.step mapErr (Action.step i o) = some s1 →
      s1.run mapErr acts = some s' →
      s'.threads[i]? = some (Thread.WaitWrite ctx' (WaitPc.ret r)) →
      s1.threads[i]? = some (Thread.WaitWrite ctx (WaitPc.detach DetachPc.cas)) ∧
        s'.pd.closed ≠ 0) ∧
    ∀ (pd : pollDesc) (c : Context) (o : Oracle),
      (pd.operator.isUnused = true → o.arm = none) →
      (select3 pd.closeTrigger.recvReady pd.writeTrigger.recvReady c.doneReady o.branch
          = some Branch.ctxDone →
        (pd.WaitWrite mapErr c o).1 = pd.armed.detach o.detach) ∧
      (pd.closeTrigger.isClosed = false → pd.writeTrigger.isClosed = false → c.Err ≠ none →
        select3 pd.closeTrigger.recvReady pd.writeTrigger.recvReady c.doneReady o.branch
          = some Branch.ctxDone ∧
        (pd.WaitWrite mapErr c o).2 = WaitResult.returned (mapErr c.Err) ∧
        (pd.closed = 0 →
          (pd.WaitWrite mapErr c o).1.controls PollEvent.PollDetach
            = pd.controls PollEvent.PollDetach + 1)) := by
  constructor
  · intro s s1 s' acts i o ctx ctx' r ht hsel hstep hrun ht'
    obtain ⟨_, pc, h1, h2, h3⟩ :=
      select_afterSelect mapErr s s1 i o ctx Branch.ctxDone ht hsel hstep
    have hdone : Branch.ctxDone = Branch.ctxDone → ctx.doneReady = true := fun hb =>
      ((select3_sound _ _ _ _).1 Branch.ctxDone hsel).2.2 hb
    obtain ⟨c, p, hc, _, hp⟩ :=
      run_afterSelect mapErr Branch.ctxDone ctx i s1 s' acts hdone hrun
        ⟨ctx, pc, h1, fun _ => rfl, h2⟩
    rw [ht'] at hc
    cases hc
    refine ⟨?_, hp.1⟩
    rw [h1, h3 rfl]
  · intro pd c o harm
    have hw := waitWrite_armed mapErr pd c o harm
    refine ⟨?_, ?_⟩
    · intro hsel
      rw [hw, hsel]
    · intro hct hwt hce
      have hsel : select3 pd.closeTrigger.recvReady pd.writeTrigger.recvReady c.doneReady
          o.branch = some Branch.ctxDone := by
        cases hce' : c.Err with
        | none => exact absurd hce' hce
        | some e =>
          cases hb : o.branch <;>
            simp [select3, Chan.recvReady, Context.doneReady, hct, hwt, hce']
      refine ⟨hsel, ?_, ?_⟩
      · rw [hw, hsel]
        simp [pollDesc.recheck, Chan.recvReady, (detach_triggers _ _).1, (armed_frame pd).1,
          hct]
      · intro hz
        rw [hw, hsel]
        have hz' : pd.armed.closed = 0 := by rw [(armed_frame pd).2.2.1, hz]
        rw [← (armed_frame pd).2.2.2]
        cases hd : o.detach <;>
          simp [pollDesc.detach, CompareAndSwapInt32, hz', FDOperator.Control,
            FDOperator.Free, pollDesc.controls, OpCall.isControl]

/-- C10 as stated fails: `WaitWrite` is suspended in its wait, `onwrite` closes
`writeTrigger` and the context is cancelled, so that two cases are ready when
the wait resolves; the `select` takes `writeTrigger`, and `WaitWrite` returns
nil without `detach` having been invoked: `closed` is still 0 and no
`Control(PollDetach)` call was made. -/
theorem cancellation_detaches_counterexample :
    (Sys.init (newPollDesc FDOperator.fresh 3) [Call.WaitWrite ⟨none⟩, Call.onwrite]).run id
        (writableAndDoneSchedule.take 5) = some writableAndDone ∧
    writableAndDone.threads[0]?
      = some (Thread.WaitWrite ⟨some (ErrVal.other 2)⟩ WaitPc.select) ∧
    Context.doneReady ⟨some (ErrVal.other 2)⟩ = true ∧
    (Sys.init (newPollDesc FDOperator.fresh 3) [Call.WaitWrite ⟨none⟩, Call.onwrite]).run id
        writableAndDoneSchedule = some writableAndDoneFinal ∧
    writableAndDoneFinal.threads[0]?
      = some (Thread.WaitWrite ⟨some (ErrVal.other 2)⟩ (WaitPc.ret none)) ∧
    writableAndDoneFinal.pd.closed = 0 ∧
    writableAndDoneFinal.pd.controls PollEvent.PollDetach = 0 :=
  ⟨by decide, by decide, by decide, by decide, by decide, by decide, by decide⟩

/-- A witness of C10 as amended (scenario C): the context is done and no event
has fired; the wait resolves through `ctx.Done()`, `detach` runs, and
`WaitWrite` returns the mapped context error. -/
theorem cancellation_detaches_witness :
    onlyDone.step id (Action.step 0 (Oracle.ok Branch.writeTrigger)) = some onlyDoneResolved ∧
    onlyDoneResolved.run id (List.replicate 5 (Action.step 0 (Oracle.ok Branch.writeTrigger)))
      = some onlyDoneFinal ∧
    onlyDoneFinal.pd.controls PollEvent.PollDetach = 1 ∧
    (onlyDoneResolved.threads[0]?
        = some (Thread.WaitWrite ⟨some (ErrVal.other 2)⟩ (WaitPc.detach DetachPc.cas)) ∧
      onlyDoneFinal.pd.closed ≠ 0) :=
  ⟨by decide, by decide, by decide,
    (cancellation_detaches id).1 onlyDone onlyDoneResolved onlyDoneFinal
      (List.replicate 5 (Action.step 0 (Oracle.ok Branch.writeTrigger))) 0
      (Oracle.ok Branch.writeTrigger) ⟨some (ErrVal.other 2)⟩ ⟨some (ErrVal.other 2)⟩
      (some (ErrVal.other 2)) (by decide) (by decide) (by decide) (by decide) (by decide)⟩

/-! ## The two views agree -/

/-- Run on its own, the thread of `detach` does what the call does, in at most
three statements. -/
theorem solo_detach (mapErr : Error → Error) (o : Oracle) (pd : pollDesc) :
    Thread.solo mapErr o 4 pd (Thread.detach DetachPc.cas)
      = Except.ok (pd.detach o.detach, Thread.detach DetachPc.ret) := by
  by_cases hc : pd.closed = 0
  · cases hd : o.detach <;>
      simp [Thread.solo, Thread.step, DetachPc.step, pollDesc.detach, CompareAndSwapInt32, hc,
        hd, FDOperator.Control, FDOperator.Free]
  · simp [Thread.solo, Thread.step, DetachPc.step, pollDesc.detach, CompareAndSwapInt32, hc]

/-- Run on its own, the thread of `onwrite` does what the call does. -/
theorem solo_onwrite (mapErr : Error → Error) (o : Oracle) (pd : pollDesc) :
    (Thread.solo mapErr o 3 pd (Thread.onwrite OnwritePc.select)).map
        (fun r => (r.1, r.2.returned))
      = pd.onwrite.map (fun r => (r.1, true)) ∧
    Thread.solo mapErr o 3 pd (Thread.onwrite OnwritePc.select)
      = Except.ok ({ pd with writeTrigger := ⟨true⟩ }, Thread.onwrite (OnwritePc.ret none)) := by
  rw [onwrite_eq]
  cases hw : pd.writeTrigger.isClosed with
  | true =>
    have : pd.writeTrigger = ⟨true⟩ := by
      cases hc : pd.writeTrigger
      simp_all
    simp [Thread.solo, Thread.step, Chan.recvReady, hw, Except.map, Thread.returned, ← this]
  | false =>
    simp [Thread.solo, Thread.step, Chan.recvReady, Chan.close, hw, Except.map,
      Thread.returned]

/-- Run on its own, the thread of `onhup` does what the call does. -/
theorem solo_onhup (mapErr : Error → Error) (o : Oracle) (pd : pollDesc) :
    (Thread.solo mapErr o 5 pd (Thread.onhup OnhupPc.select)).map (fun r => r.1)
      = pd.onhup.map (fun r => r.1) ∧
    (Thread.solo mapErr o 5 pd (Thread.onhup OnhupPc.select)).map (fun r => r.2)
      = Except.ok (Thread.onhup (OnhupPc.ret none)) := by
  rw [onhup_eq]
  cases hw : pd.closeTrigger.isClosed with
  | true =>
    have : pd.closeTrigger = ⟨true⟩ := by
      cases hc : pd.closeTrigger
      simp_all
    by_cases hz : pd.closed = 0 <;>
      simp [Thread.solo, Thread.step, Chan.recvReady, hw, Except.map, CompareAndSwapInt32, hz,
        ← this]
  | false =>
    by_cases hz : pd.closed = 0 <;>
      simp [Thread.solo, Thread.step, Chan.recvReady, Chan.close, hw, Except.map,
        CompareAndSwapInt32, hz]

/-- Run on its own, the thread of `WaitWrite` does what the call does, in at
most eight statements: it ends with the same descriptor, returned with the same
error or suspended in its `select`. -/
theorem solo_WaitWrite (mapErr : Error → Error) (o : Oracle) (pd : pollDesc) (ctx : Context) :
    Thread.solo mapErr o 9 pd (Thread.WaitWrite ctx WaitPc.entry)
      = Except.ok ((pd.WaitWrite mapErr ctx o).1, (pd.WaitWrite mapErr ctx o).2.thread ctx) := by
  by_cases hu : pd.operator.isUnused = true
  · cases ha : o.arm with
    | some e =>
      simp [Thread.solo, Thread.step, pollDesc.WaitWrite, WaitResult.thread, hu, ha,
        FDOperator.Control]
    | none =>
      cases hs : select3 pd.closeTrigger.recvReady pd.writeTrigger.recvReady ctx.doneReady
          o.branch with
      | none =>
        simp [Thread.solo, Thread.step, pollDesc.WaitWrite, WaitResult.thread, hu, ha,
          FDOperator.Control, hs]
      | some b =>
        cases b with
        | closeTrigger =>
          simp [Thread.solo, Thread.step, pollDesc.WaitWrite, WaitResult.thread, hu, ha,
            FDOperator.Control, hs]
        | writeTrigger =>
          simp [Thread.solo, Thread.step, pollDesc.WaitWrite, WaitResult.thread, hu, ha,
            FDOperator.Control, hs]
        | ctxDone =>
          by_cases hc : pd.closed = 0
          · cases hd : o.detach <;>
              simp [Thread.solo, Thread.step, DetachPc.step, pollDesc.WaitWrite,
                WaitResult.thread, hu, ha, FDOperator.Control, FDOperator.Free, hs,
                pollDesc.detach, CompareAndSwapInt32, hc, hd]
          · simp [Thread.solo, Thread.step, DetachPc.step, pollDesc.WaitWrite,
              WaitResult.thread, hu, ha, FDOperator.Control, hs, pollDesc.detach,
              CompareAndSwapInt32, hc]
  · cases hs : select3 pd.closeTrigger.recvReady pd.writeTrigger.recvReady ctx.doneReady
        o.branch with
    | none =>
      simp [Thread.solo, Thread.step, pollDesc.WaitWrite, WaitResult.thread, hu, hs]
    | some b =>
      cases b with
      | closeTrigger =>
        simp [Thread.solo, Thread.step, pollDesc.WaitWrite, WaitResult.thread, hu, hs]
      | writeTrigger =>
        simp [Thread.solo, Thread.step, pollDesc.WaitWrite, WaitResult.thread, hu, hs]
      | ctxDone =>
        by_cases hc : pd.closed = 0
        · cases hd : o.detach <;>
            simp [Thread.solo, Thread.step, DetachPc.step, pollDesc.WaitWrite,
              WaitResult.thread, hu, FDOperator.Control, FDOperator.Free, hs,
              pollDesc.detach, CompareAndSwapInt32, hc, hd]
        · simp [Thread.solo, Thread.step, DetachPc.step, pollDesc.WaitWrite,
            WaitResult.thread, hu, hs, pollDesc.detach, CompareAndSwapInt32, hc]

end Netpoll
